import Mathlib

/-!
# Verification of the opcua server core against its specification

This file gives a shallow embedding, in Lean 4, of the parts of the Go
OPC UA server relevant to the verified claims: index-range parsing and
slicing (`parseBounds`, `readRange`, `writeRange`), the Value-attribute
read and write paths (`readValue`, `writeValue`), the monitored-item
deadband filter gate, NodeId printing and parsing, the project-manager
state machine, and the user access-level derivation.

Go strings are modelled as `List Char` (Go iterates runes when slicing
strings), Go byte strings as `List Nat`, Go machine integers as `Int`
or `Nat` with the bounds of the original type carried in hypotheses or
checks, and `time.Now()` as an explicit `now : Nat` parameter.  A Go
function that can panic is modelled with an `Option` result, `none`
standing for the panic.
-/

/-- Status codes used by the modelled code paths.  The Go code represents
these as distinguished `uint32` constants of the `ua` package; the enum
keeps them abstract.  `other` stands for any further status code a
user-installed handler may return, with its badness flag. -/
inductive StatusCode where
  | Good
  | BadIndexRangeInvalid
  | BadIndexRangeNoData
  | BadNodeIdUnknown
  | BadUserAccessDenied
  | BadTypeMismatch
  | BadFilterNotAllowed
  | BadNotReadable
  | BadNotWritable
  | BadOutOfRange
  | BadAttributeIdInvalid
  | BadDataEncodingInvalid
  | other (isBadFlag : Bool) (tok : Nat)
  deriving DecidableEq, Repr

namespace StatusCode

/-- `ua.StatusCode.IsBad`: all the `Bad*` constants have bad severity;
for other codes the severity is carried by the flag. -/
def IsBad : StatusCode → Bool
  | Good => false
  | other b _ => b
  | _ => true

end StatusCode

/-! ## Go numeric string parsing (`strconv.ParseInt` / `strconv.ParseUint`)

`strconv.ParseInt(s, 10, bitSize)` accepts an optional sign followed by a
non-empty run of decimal digits, and fails when the value does not fit the
signed `bitSize`-bit range; `ParseUint` accepts no sign. -/

def isDecDigit (c : Char) : Bool := '0' ≤ c && c ≤ '9'

def digitVal (c : Char) : Nat := c.toNat - '0'.toNat

def digitsVal (cs : List Char) : Nat := cs.foldl (fun a c => 10 * a + digitVal c) 0

/-- Parse a non-empty all-digit run; `none` on empty input or a non-digit. -/
def parseDigits (cs : List Char) : Option Nat :=
  if cs.isEmpty then none
  else if cs.all isDecDigit then some (digitsVal cs) else none

/-- `strconv.ParseInt(s, 10, bitSize)` as a partial function. -/
def goParseInt (cs : List Char) (bitSize : Nat) : Option Int :=
  match cs with
  | '-' :: rest =>
    (parseDigits rest).bind fun n =>
      if (n : Int) ≤ 2 ^ (bitSize - 1) then some (-(n : Int)) else none
  | '+' :: rest =>
    (parseDigits rest).bind fun n =>
      if (n : Int) ≤ 2 ^ (bitSize - 1) - 1 then some (n : Int) else none
  | _ =>
    (parseDigits cs).bind fun n =>
      if (n : Int) ≤ 2 ^ (bitSize - 1) - 1 then some (n : Int) else none

/-- `strconv.ParseUint(s, 10, bitSize)` as a partial function. -/
def goParseUint (cs : List Char) (bitSize : Nat) : Option Nat :=
  (parseDigits cs).bind fun n => if n ≤ 2 ^ bitSize - 1 then some n else none

/-- `strings.Index(s, sep)` for a single-character separator, returned as
the split around the first occurrence (`none` when absent). -/
def breakAtFirst (sep : Char) : List Char → Option (List Char × List Char)
  | [] => none
  | c :: cs =>
    if c = sep then some ([], cs)
    else (breakAtFirst sep cs).map fun p => (c :: p.1, p.2)

/-! ## `parseBounds` (index-range dimension parsing) -/

/-- The tail of Go `parseBounds` after `lo` and `hi` have been read:
the `lo < 0` / `lo >= len` checks, the clamp of `hi` to `len-1`, the
`hi == -1` single-index adaptation and the final `hi++`. -/
def parseBoundsTail (lo hi len : Int) : Int × Int × StatusCode :=
  if lo < 0 then (-1, -1, .BadIndexRangeInvalid)
  else if lo ≥ len then (-1, -1, .BadIndexRangeNoData)
  else
    let hi1 := if hi ≥ len then len - 1 else hi
    let hi2 := if hi1 = -1 then lo else hi1
    (lo, hi2 + 1, .Good)

/-- Go `parseBounds(s string, length int)`: parses one index-range
dimension, either a single index or `lo:hi`, against a value of the given
length.  Returns an end-exclusive pair and a status. -/
def parseBounds (s : List Char) (length : Int) : Int × Int × StatusCode :=
  if length = 0 then (-1, -1, .BadIndexRangeNoData)
  else if s.isEmpty then (0, length, .Good)
  else
    match breakAtFirst ':' s with
    | some (s1, s2) =>
      match goParseInt s1 32 with
      | none => (-1, -1, .BadIndexRangeInvalid)
      | some lo =>
        match goParseInt s2 32 with
        | none => (-1, -1, .BadIndexRangeInvalid)
        | some hi =>
          if hi < 0 then (-1, -1, .BadIndexRangeInvalid)
          else if lo ≥ hi then (-1, -1, .BadIndexRangeInvalid)
          else parseBoundsTail lo hi length
    | none =>
      match goParseInt s 32 with
      | none => (-1, -1, .BadIndexRangeInvalid)
      | some lo => parseBoundsTail lo (-1) length

/-! ## Variants, values and DataValue

The Go `Variant` is `interface{}`; `readRange`/`writeRange`/`writeValue`
dispatch on its dynamic type with one structurally identical branch per
element type.  The embedding keeps one constructor per *shape* and a kind
tag for the element type, so a Go branch over `[]int32` is the `arr
.kInt32` instance of the single `arr` branch.  Element values other than
strings and byte strings are abstract tokens (`Nat`); slicing and
splicing never inspect them. -/

/-- Element kinds of the non-string scalar and array branches. -/
inductive SimpleKind where
  | kBool | kSByte | kByte | kInt16 | kUInt16 | kInt32 | kUInt32 | kInt64 | kUInt64
  | kFloat | kDouble | kDateTime | kGuid | kXml | kNodeId | kExpNodeId | kStatusCode
  | kQualName | kLocText | kExtObj | kDataValue | kVariant | kDiag
  deriving DecidableEq, Repr

/-- A Go `Variant` value as seen by the modelled code paths. -/
inductive GoValue where
  | vnil
  | scalar (k : SimpleKind) (tok : Nat)
  | str (cs : List Char)
  | bytestr (bs : List Nat)
  | arr (k : SimpleKind) (xs : List Nat)
  | strArr (xs : List (List Char))
  | byteStrArr (xs : List (List Nat))
  deriving DecidableEq, Repr

/-- `ua.DataValue`; timestamps are abstract instants with `0` the zero
time, picoseconds kept as in the Go struct.  Field order follows
`ua.NewDataValue(value, statusCode, sourceTs, sourcePico, serverTs,
serverPico)`. -/
structure DataValueM where
  value : GoValue
  statusCode : StatusCode
  sourceTimestamp : Nat
  sourcePicoseconds : Nat
  serverTimestamp : Nat
  serverPicoseconds : Nat
  deriving DecidableEq, Repr

/-- `ua.NilDataValue`: the zero `DataValue`. -/
def NilDataValue : DataValueM := ⟨.vnil, .Good, 0, 0, 0, 0⟩

/-- `strings.Split(s, sep)` for a one-character separator. -/
def splitOn (sep : Char) : List Char → List (List Char)
  | [] => [[]]
  | c :: cs =>
    if c = sep then [] :: splitOn sep cs
    else
      match splitOn sep cs with
      | [] => [[c]]
      | g :: gs => (c :: g) :: gs

/-- Go `dst := make(...); copy(dst, src[i:j])`: the end-exclusive slice. -/
def goSlice (xs : List α) (i j : Int) : List α :=
  (xs.drop i.toNat).take (j - i).toNat

/-- Go `dst := copy of xs; copy(dst[i:j], ys)` at the call sites of
`writeRange`, which all guard `j-i == len(ys)` first, so the overwritten
window is exactly `ys`. -/
def goSplice (xs : List α) (i : Int) (ys : List α) : List α :=
  xs.take i.toNat ++ ys ++ xs.drop (i.toNat + ys.length)

/-- The error `DataValue` built by `readRange` on a bad status. -/
def errRR (status : StatusCode) (source : DataValueM) : DataValueM :=
  ⟨.vnil, status, source.sourceTimestamp, 0, source.serverTimestamp, 0⟩

/-- The success `DataValue` built by `readRange`. -/
def okRR (v : GoValue) (source : DataValueM) : DataValueM :=
  ⟨v, source.statusCode, source.sourceTimestamp, 0, source.serverTimestamp, 0⟩

/-- The inner-dimension loop of `readRange` over `[]string` /
`[]ua.ByteString`: slice every element with the second range, stopping at
the first bad status. -/
def innerSliceAll (r : List Char) : List (List α) → Except StatusCode (List (List α))
  | [] => .ok []
  | s :: rest =>
    let (i, j, status) := parseBounds r (s.length : Int)
    if status.IsBad then .error status
    else
      match innerSliceAll r rest with
      | .error e => .error e
      | .ok rs => .ok (goSlice s i j :: rs)

/-- Go `readRange(source, indexRange)`: returns the slice of the value
selected by the index range.  Strings and byte strings take one
dimension, arrays one, arrays of strings / byte strings up to two. -/
def readRange (source : DataValueM) (indexRange : List Char) : DataValueM :=
  if indexRange.isEmpty then source
  else
    let ranges := splitOn ',' indexRange
    match source.value with
    | .str cs =>
      if ranges.length > 1 then errRR .BadIndexRangeNoData source
      else
        let (i, j, status) := parseBounds (ranges.headD []) (cs.length : Int)
        if status.IsBad then errRR status source
        else okRR (.str (goSlice cs i j)) source
    | .bytestr bs =>
      if ranges.length > 1 then errRR .BadIndexRangeNoData source
      else
        let (i, j, status) := parseBounds (ranges.headD []) (bs.length : Int)
        if status.IsBad then errRR status source
        else okRR (.bytestr (goSlice bs i j)) source
    | .arr k xs =>
      if ranges.length > 1 then errRR .BadIndexRangeNoData source
      else
        let (i, j, status) := parseBounds (ranges.headD []) (xs.length : Int)
        if status.IsBad then errRR status source
        else okRR (.arr k (goSlice xs i j)) source
    | .strArr xs =>
      if ranges.length > 2 then errRR .BadIndexRangeNoData source
      else
        let (i, j, status) := parseBounds (ranges.headD []) (xs.length : Int)
        if status.IsBad then errRR status source
        else
          let dst := goSlice xs i j
          if ranges.length > 1 then
            match innerSliceAll (ranges.getD 1 []) dst with
            | .error e => errRR e source
            | .ok ds => okRR (.strArr ds) source
          else okRR (.strArr dst) source
    | .byteStrArr xs =>
      if ranges.length > 2 then errRR .BadIndexRangeNoData source
      else
        let (i, j, status) := parseBounds (ranges.headD []) (xs.length : Int)
        if status.IsBad then errRR status source
        else
          let dst := goSlice xs i j
          if ranges.length > 1 then
            match innerSliceAll (ranges.getD 1 []) dst with
            | .error e => errRR e source
            | .ok ds => okRR (.byteStrArr ds) source
          else okRR (.byteStrArr dst) source
    | _ => errRR .BadIndexRangeNoData source

/-- Go `writeRange(source, value, indexRange)`: splice `value` into
`source` over the index range.  `time.Now()` is the explicit `now`;
`none` models the panic of the unchecked type assertion on `value.Value`
when its dynamic type differs from the source's.  Note the `[]string` /
`[]ua.ByteString` branches accept up to two dimensions but use only the
first. -/
def writeRange (source value : DataValueM) (indexRange : List Char) (now : Nat) :
    Option (DataValueM × StatusCode) :=
  if indexRange.isEmpty then
    some (⟨value.value, value.statusCode, now, 0, now, 0⟩, .Good)
  else
    let ranges := splitOn ',' indexRange
    match source.value with
    | .str cs =>
      if ranges.length > 1 then some (NilDataValue, .BadIndexRangeNoData)
      else
        let (i, j, status) := parseBounds (ranges.headD []) (cs.length : Int)
        if status.IsBad then some (NilDataValue, status)
        else
          match value.value with
          | .str cs2 =>
            if j - i ≠ (cs2.length : Int) then some (NilDataValue, .BadIndexRangeNoData)
            else some (⟨.str (goSplice cs i cs2), value.statusCode, now, 0, now, 0⟩, .Good)
          | _ => none
    | .bytestr bs =>
      if ranges.length > 1 then some (NilDataValue, .BadIndexRangeNoData)
      else
        let (i, j, status) := parseBounds (ranges.headD []) (bs.length : Int)
        if status.IsBad then some (NilDataValue, status)
        else
          match value.value with
          | .bytestr bs2 =>
            if j - i ≠ (bs2.length : Int) then some (NilDataValue, .BadIndexRangeNoData)
            else some (⟨.bytestr (goSplice bs i bs2), value.statusCode, now, 0, now, 0⟩, .Good)
          | _ => none
    | .arr k xs =>
      if ranges.length > 1 then some (NilDataValue, .BadIndexRangeNoData)
      else
        let (i, j, status) := parseBounds (ranges.headD []) (xs.length : Int)
        if status.IsBad then some (NilDataValue, status)
        else
          match value.value with
          | .arr k2 ys =>
            if k2 = k then
              if j - i ≠ (ys.length : Int) then some (NilDataValue, .BadIndexRangeNoData)
              else some (⟨.arr k (goSplice xs i ys), value.statusCode, now, 0, now, 0⟩, .Good)
            else none
          | _ => none
    | .strArr xs =>
      if ranges.length > 2 then some (NilDataValue, .BadIndexRangeNoData)
      else
        let (i, j, status) := parseBounds (ranges.headD []) (xs.length : Int)
        if status.IsBad then some (NilDataValue, status)
        else
          match value.value with
          | .strArr ys =>
            if j - i ≠ (ys.length : Int) then some (NilDataValue, .BadIndexRangeNoData)
            else some (⟨.strArr (goSplice xs i ys), value.statusCode, now, 0, now, 0⟩, .Good)
          | _ => none
    | .byteStrArr xs =>
      if ranges.length > 2 then some (NilDataValue, .BadIndexRangeNoData)
      else
        let (i, j, status) := parseBounds (ranges.headD []) (xs.length : Int)
        if status.IsBad then some (NilDataValue, status)
        else
          match value.value with
          | .byteStrArr ys =>
            if j - i ≠ (ys.length : Int) then some (NilDataValue, .BadIndexRangeNoData)
            else some (⟨.byteStrArr (goSplice xs i ys), value.statusCode, now, 0, now, 0⟩, .Good)
          | _ => none
    | _ => some (NilDataValue, .BadIndexRangeNoData)

/-! ## Variant types, permissions and access levels

The `ua` constants referenced by the server code (`ua.VariantType*`,
`ua.PermissionType*`, `ua.AccessLevels*`, `ua.ValueRank*`,
`ua.DeadbandType*`) live in files of this repository that are not among
the extracted sources; their values are the standard OPC UA ones the
spec's data model describes. -/

/-- `ua.VariantType*`: the OPC UA built-in variant type of a value. -/
inductive VType where
  | VtNull | VtBoolean | VtSByte | VtByte | VtInt16 | VtUInt16 | VtInt32 | VtUInt32
  | VtInt64 | VtUInt64 | VtFloat | VtDouble | VtString | VtDateTime | VtGUID | VtByteString
  | VtXMLElement | VtNodeID | VtExpandedNodeID | VtStatusCode | VtQualifiedName
  | VtLocalizedText | VtExtensionObject | VtDataValue | VtVariant | VtDiagnosticInfo
  deriving DecidableEq, Repr

/-- The variant type tagging each `SimpleKind` (as `ua.NewJsonVariant`
classifies the corresponding Go dynamic types). -/
def kindVT : SimpleKind → VType
  | .kBool => .VtBoolean
  | .kSByte => .VtSByte
  | .kByte => .VtByte
  | .kInt16 => .VtInt16
  | .kUInt16 => .VtUInt16
  | .kInt32 => .VtInt32
  | .kUInt32 => .VtUInt32
  | .kInt64 => .VtInt64
  | .kUInt64 => .VtUInt64
  | .kFloat => .VtFloat
  | .kDouble => .VtDouble
  | .kDateTime => .VtDateTime
  | .kGuid => .VtGUID
  | .kXml => .VtXMLElement
  | .kNodeId => .VtNodeID
  | .kExpNodeId => .VtExpandedNodeID
  | .kStatusCode => .VtStatusCode
  | .kQualName => .VtQualifiedName
  | .kLocText => .VtLocalizedText
  | .kExtObj => .VtExtensionObject
  | .kDataValue => .VtDataValue
  | .kVariant => .VtVariant
  | .kDiag => .VtDiagnosticInfo

/-- `ua.AccessLevelsCurrentRead`. -/
def AccessLevelsCurrentRead : Nat := 1
/-- `ua.AccessLevelsCurrentWrite`. -/
def AccessLevelsCurrentWrite : Nat := 2
/-- `ua.AccessLevelsHistoryRead`. -/
def AccessLevelsHistoryRead : Nat := 4

/-- `ua.PermissionTypeBrowse`. -/
def PermissionTypeBrowse : Nat := 1
/-- `ua.PermissionTypeRead`. -/
def PermissionTypeRead : Nat := 32
/-- `ua.PermissionTypeWrite`. -/
def PermissionTypeWrite : Nat := 64
/-- `ua.PermissionTypeReadHistory`. -/
def PermissionTypeReadHistory : Nat := 128

/-- `ua.ValueRankScalarOrOneDimension`. -/
def ValueRankScalarOrOneDimension : Int := -3
/-- `ua.ValueRankAny`. -/
def ValueRankAny : Int := -2
/-- `ua.ValueRankScalar`. -/
def ValueRankScalar : Int := -1
/-- `ua.ValueRankOneOrMoreDimensions`. -/
def ValueRankOneOrMoreDimensions : Int := 0
/-- `ua.ValueRankOneDimension`. -/
def ValueRankOneDimension : Int := 1

/-- `ua.DeadbandTypeNone`. -/
def DeadbandTypeNone : Nat := 0

/-- `ua.RolePermissionType`: a role NodeId (abstract token) with its
permission mask. -/
structure RolePermissionM where
  roleId : Nat
  permissions : Nat
  deriving DecidableEq, Repr

/-- The per-session data `UserAccessLevel` consults: `session.UserRoles()`
and `session.Server().RolePermissions()`. -/
structure SessionM where
  userRoles : List Nat
  serverRolePermissions : List RolePermissionM
  deriving DecidableEq, Repr

/-- `ua.VariableNode` restricted to the fields the verified code paths
read.  `dataTypeVT` is the destination variant type the server computes
as `NamespaceManager().FindVariantType(n.GetDataType())`; `rolePermissions
= none` models the Go `nil` slice that falls back to the server-wide
role permissions. -/
structure VariableNodeM where
  accessLevel : Nat
  rolePermissions : Option (List RolePermissionM)
  value : DataValueM
  dataTypeVT : VType
  valueRank : Int
  readHandler : Option (List Char → DataValueM)
  writeHandler : Option (DataValueM → DataValueM × StatusCode)

/-- The rolePermissions slice `UserAccessLevel` iterates: the node's own
when non-nil, else the server defaults. -/
def effectiveRolePermissions (n : VariableNodeM) (s : SessionM) : List RolePermissionM :=
  match n.rolePermissions with
  | none => s.serverRolePermissions
  | some rps => rps

/-- The nested loop of `VariableNode.UserAccessLevel` that raises the
`currentRead`/`currentWrite`/`historyRead` flags over all matching
role-permission entries. -/
def permFlagsFor (roles : List Nat) (rps : List RolePermissionM) : Bool × Bool × Bool :=
  roles.foldl
    (fun acc role =>
      rps.foldl
        (fun acc rp =>
          if rp.roleId = role then
            (acc.1 || (rp.permissions &&& PermissionTypeRead != 0),
             acc.2.1 || (rp.permissions &&& PermissionTypeWrite != 0),
             acc.2.2 || (rp.permissions &&& PermissionTypeReadHistory != 0))
          else acc)
        acc)
    (false, false, false)

/-- Go `a &^ b` (and-not): clear from `a` every bit set in `b`. -/
def goAndNot (a b : Nat) : Nat := a ^^^ (a &&& b)

/-- `VariableNode.UserAccessLevel(ctx)`: the node's access level with the
`CurrentRead`/`CurrentWrite`/`HistoryRead` bits and-not-cleared
(`&^=`, `goAndNot`) when the session's roles lack the corresponding
permission; `0` when the context carries no session. -/
def userAccessLevel (n : VariableNodeM) (ctx : Option SessionM) : Nat :=
  match ctx with
  | none => 0
  | some session =>
    let flags := permFlagsFor session.userRoles (effectiveRolePermissions n session)
    let a1 := if flags.1 then n.accessLevel else goAndNot n.accessLevel AccessLevelsCurrentRead
    let a2 := if flags.2.1 then a1 else goAndNot a1 AccessLevelsCurrentWrite
    if flags.2.2 then a2 else goAndNot a2 AccessLevelsHistoryRead

/-! ## `readValue`, Value attribute on a VariableNode -/

/-- The error `DataValue` `readValue` builds:
`ua.NewDataValue(nil, status, time.Time\x7b\x7d, 0, time.Now(), 0)`. -/
def errDV (status : StatusCode) (now : Nat) : DataValueM :=
  ⟨.vnil, status, 0, 0, now, 0⟩

/-- The `AttributeIDValue` / `*VariableNode` branch of `UAServer.readValue`
(the node was resolved and passed the browse-permission gate):
access-level gate, user access-level gate, then the installed
`ReadValueHandler` or `readRange` on the current value. -/
def readValueVar (n : VariableNodeM) (ctx : Option SessionM) (indexRange : List Char)
    (now : Nat) : DataValueM :=
  if n.accessLevel &&& AccessLevelsCurrentRead = 0 then errDV .BadNotReadable now
  else if userAccessLevel n ctx &&& AccessLevelsCurrentRead = 0 then errDV .BadUserAccessDenied now
  else
    match n.readHandler with
    | some f => f indexRange
    | none => readRange n.value indexRange

/-! ## `writeValue`, Value attribute on a VariableNode -/

/-- The operation limits `writeValue` checks lengths against. -/
structure ServerCaps where
  maxStringLength : Nat
  maxByteStringLength : Nat
  maxArrayLength : Nat
  deriving DecidableEq, Repr

/-- The two special coercions of `writeValue`, applied in source order:
a `ByteString` written to a `Byte` variable of rank one becomes a byte
array, and a byte array written to a scalar `ByteString` variable becomes
a `ByteString`. -/
def coerceSpecial (destType : VType) (destRank : Int) (v : GoValue) : GoValue :=
  let v1 :=
    if destType = .VtByte ∧ destRank = ValueRankOneDimension then
      match v with
      | .bytestr bs => .arr .kByte bs
      | _ => v
    else v
  if destType = .VtByteString ∧ destRank = ValueRankScalar then
    match v1 with
    | .arr .kByte bs => .bytestr bs
    | _ => v1
  else v1

/-- Scalar-family rank admission of `writeValue`. -/
def scalarRankOk (destRank : Int) : Bool :=
  destRank == ValueRankScalar || destRank == ValueRankScalarOrOneDimension ||
  destRank == ValueRankAny

/-- Array-family rank admission of `writeValue`. -/
def arrayRankOk (destRank : Int) : Bool :=
  destRank == ValueRankOneDimension || destRank == ValueRankOneOrMoreDimensions ||
  destRank == ValueRankScalarOrOneDimension || destRank == ValueRankAny

/-- The scalar cases of the `writeValue` type switch.  The Go switch
enumerates `bool` through `ua.LocalizedText`; any other scalar dynamic
type (ExtensionObject, DataValue, Variant, DiagnosticInfo, custom
structs) falls through to `default`, returned here as `none`. -/
def scalarCaseVT : SimpleKind → Option VType
  | .kExtObj => none
  | .kDataValue => none
  | .kVariant => none
  | .kDiag => none
  | k => some (kindVT k)

/-- The array cases of the `writeValue` type switch.  `[]ua.DiagnosticInfo`
has no case and falls through to `default` (`none`). -/
def arrayCaseVT : SimpleKind → Option VType
  | .kDiag => none
  | k => some (kindVT k)

/-- The type/rank/length check of `writeValue` on the (already coerced)
supplied value: `some err` mirrors an early `return err`, `none` passes.
The branches follow the Go switch: per-case length guard first
(`BadOutOfRange`), then the destination-type equation, then the rank
family; the `default` branch applies ExtensionObject scalar checks with
no length guard. -/
def checkTypeRank (caps : ServerCaps) (destType : VType) (destRank : Int) :
    GoValue → Option StatusCode
  | .vnil => none
  | .scalar k _ =>
    match scalarCaseVT k with
    | some req =>
      if destType != req && destType != .VtVariant then some .BadTypeMismatch
      else if !scalarRankOk destRank then some .BadTypeMismatch
      else none
    | none =>
      if destType != .VtExtensionObject && destType != .VtVariant then some .BadTypeMismatch
      else if !scalarRankOk destRank then some .BadTypeMismatch
      else none
  | .str cs =>
    if cs.length > caps.maxStringLength then some .BadOutOfRange
    else if destType != .VtString && destType != .VtVariant then some .BadTypeMismatch
    else if !scalarRankOk destRank then some .BadTypeMismatch
    else none
  | .bytestr bs =>
    if bs.length > caps.maxByteStringLength then some .BadOutOfRange
    else if destType != .VtByteString && destType != .VtVariant then some .BadTypeMismatch
    else if !scalarRankOk destRank then some .BadTypeMismatch
    else none
  | .arr k xs =>
    match arrayCaseVT k with
    | some req =>
      if xs.length > caps.maxArrayLength then some .BadOutOfRange
      else if destType != req && destType != .VtVariant then some .BadTypeMismatch
      else if !arrayRankOk destRank then some .BadTypeMismatch
      else none
    | none =>
      if destType != .VtExtensionObject && destType != .VtVariant then some .BadTypeMismatch
      else if !scalarRankOk destRank then some .BadTypeMismatch
      else none
  | .strArr xs =>
    if xs.length > caps.maxArrayLength then some .BadOutOfRange
    else if destType != .VtString && destType != .VtVariant then some .BadTypeMismatch
    else if !arrayRankOk destRank then some .BadTypeMismatch
    else none
  | .byteStrArr xs =>
    if xs.length > caps.maxArrayLength then some .BadOutOfRange
    else if destType != .VtByteString && destType != .VtVariant then some .BadTypeMismatch
    else if !arrayRankOk destRank then some .BadTypeMismatch
    else none

/-- The `AttributeIDValue` / `*VariableNode` branch of
`UAServer.writeValue` (the node was resolved and passed the
browse-permission gate).  Returns the per-item status and the new node
value stored by `SetValue` (when any); the outer `none` models the panic
`writeRange` can raise on a mismatched type assertion. -/
def writeValueVar (caps : ServerCaps) (n : VariableNodeM) (ctx : Option SessionM)
    (wv : DataValueM) (indexRange : List Char) (now : Nat) :
    Option (StatusCode × Option DataValueM) :=
  if n.accessLevel &&& AccessLevelsCurrentWrite = 0 then some (.BadNotWritable, none)
  else if userAccessLevel n ctx &&& AccessLevelsCurrentWrite = 0 then
    some (.BadUserAccessDenied, none)
  else
    let wv1 : DataValueM := { wv with value := coerceSpecial n.dataTypeVT n.valueRank wv.value }
    match checkTypeRank caps n.dataTypeVT n.valueRank wv1.value with
    | some err => some (err, none)
    | none =>
      match n.writeHandler with
      | some f =>
        let (result, status) := f wv1
        if status = .Good then some (status, some result) else some (status, none)
      | none =>
        match writeRange n.value wv1 indexRange now with
        | none => none
        | some (result, status) =>
          if status = .Good then some (status, some result) else some (status, none)

/-! ## Monitored-item creation, Value attribute -/

/-- `ua.DataChangeFilter` (deadband value abstract). -/
structure DataChangeFilterM where
  trigger : Nat
  deadbandType : Nat
  deadbandValue : Nat
  deriving DecidableEq, Repr

/-- The `RequestedParameters.Filter` interface value: absent (`nil`),
a `DataChangeFilter`, or some other filter type. -/
inductive FilterParam where
  | fnil
  | dataChange (dcf : DataChangeFilterM)
  | otherFilter (tok : Nat)
  deriving DecidableEq, Repr

/-- Deadband-compatible destination variant types in
`handleCreateMonitoredItems`. -/
def numericVT : VType → Bool
  | .VtByte | .VtSByte | .VtInt16 | .VtInt32 | .VtInt64
  | .VtUInt16 | .VtUInt32 | .VtUInt64 | .VtFloat | .VtDouble => true
  | _ => false

/-- The `AttributeIDValue` / `*VariableNode` branch of
`UAServer.handleCreateMonitoredItems` for one item: access gates, index
range (its status passed in, as computed by `validateIndexRange`), the
filter default, the `DataChangeFilter` assertion and the deadband
type gate.  Returns the per-item status and whether an item was created
and appended to the subscription. -/
def cmiValueBranch (n : VariableNodeM) (ctx : Option SessionM) (idxStatus : StatusCode)
    (filter : FilterParam) : StatusCode × Bool :=
  if n.accessLevel &&& AccessLevelsCurrentRead = 0 then (.BadNotReadable, false)
  else if userAccessLevel n ctx &&& AccessLevelsCurrentRead = 0 then (.BadUserAccessDenied, false)
  else if idxStatus ≠ .Good then (idxStatus, false)
  else
    let filter1 : FilterParam := match filter with
      | .fnil => .dataChange ⟨1, DeadbandTypeNone, 0⟩
      | f => f
    match filter1 with
    | .dataChange dcf =>
      if dcf.deadbandType ≠ DeadbandTypeNone then
        if numericVT n.dataTypeVT then (.Good, true) else (.BadFilterNotAllowed, false)
      else (.Good, true)
    | _ => (.BadFilterNotAllowed, false)

/-! ## Project-manager state machine -/

/-- `ProjectManagerState`. -/
inductive PMState where
  | unloaded | loading | loaded | reload | error
  deriving DecidableEq, Repr

/-- The triggers configured in `ProjectManager.SetContext`. -/
inductive PMTrigger where
  | loadProject | loadSuccess | errorOccured | reloadProject
  | loadPlugins | unloadPlugins | reloadPlugins
  deriving DecidableEq, Repr

/-- The transition relation configured in `ProjectManager.SetContext`:
`some s2` when the trigger is permitted in the state (internal
transitions stay in place), `none` when firing it errors. -/
def pmStep : PMState → PMTrigger → Option PMState
  | .unloaded, .loadProject => some .loading
  | .loading, .errorOccured => some .error
  | .loading, .loadSuccess => some .loaded
  | .loaded, .reloadPlugins => some .loaded
  | .loaded, .loadPlugins => some .loaded
  | .loaded, .unloadPlugins => some .loaded
  | .loaded, .reloadProject => some .reload
  | .error, .reloadProject => some .reload
  | .reload, .loadProject => some .loading
  | _, _ => none

/-- `state.CanFire(trigger)`. -/
def pmCanFire (s : PMState) (t : PMTrigger) : Bool := (pmStep s t).isSome

/-- Modelled from the spec: the transition table of §4.2 as amended —
the claimed transitions plus `Loading → Error` on `ErrorOccurred`, which
is the only state where `ErrorOccurred` is configured. -/
def pmStepSpec : PMState → PMTrigger → Option PMState
  | .unloaded, .loadProject => some .loading
  | .loading, .loadSuccess => some .loaded
  | .loading, .errorOccured => some .error
  | .loaded, .reloadProject => some .reload
  | .error, .reloadProject => some .reload
  | .reload, .loadProject => some .loading
  | .loaded, .loadPlugins => some .loaded
  | .loaded, .unloadPlugins => some .loaded
  | .loaded, .reloadPlugins => some .loaded
  | _, _ => none

/-- Project-manager errors: the distinguished `ErrProjectNotLoaded` and
recorded load errors (abstract tokens). -/
inductive PMErr where
  | projectNotLoaded
  | loadError (tok : Nat)
  deriving DecidableEq, Repr

/-- The `ProjectManager` fields consulted by `GetCurrentError` /
`HasError`: the machine state and the `currentError` recorded by
`onError` (`none` is the Go `nil`). -/
structure ProjectManagerM where
  state : PMState
  currentError : Option PMErr
  deriving DecidableEq, Repr

/-- `ProjectManager.GetCurrentError`: returns `currentError`
unconditionally. -/
def GetCurrentError (p : ProjectManagerM) : Option PMErr := p.currentError

/-- `ProjectManager.HasError`: dispatches on the machine state. -/
def HasError (p : ProjectManagerM) : Option PMErr :=
  match p.state with
  | .error => p.currentError
  | .unloaded => some .projectNotLoaded
  | _ => none

/-- A fresh manager: state machine starts at `Unloaded`, no recorded
error. -/
def NewProjectManagerM : ProjectManagerM := ⟨.unloaded, none⟩

/-! ## NodeId text form -/

/-- Decimal digit to character. -/
def digitToChar : Nat → Char
  | 0 => '0' | 1 => '1' | 2 => '2' | 3 => '3' | 4 => '4'
  | 5 => '5' | 6 => '6' | 7 => '7' | 8 => '8' | _ => '9'

/-- Decimal rendering of a natural number, as `fmt.Sprintf("%d")`. -/
def natToDigits (n : Nat) : List Char :=
  if _h : n < 10 then [digitToChar n]
  else natToDigits (n / 10) ++ [digitToChar (n % 10)]
decreasing_by exact Nat.div_lt_self (by omega) (by omega)

/-- `ua.NodeID` with its four variants.  GUID and opaque payloads are
abstract tokens: their text codecs (`github.com/google/uuid`, std
`base64`) are external to this repository and are modelled as an
injective rendering (`natToDigits`) with `parseDigits` as its inverse. -/
inductive NodeIdM where
  | numeric (ns : Nat) (id : Nat)
  | strId (ns : Nat) (id : List Char)
  | guid (ns : Nat) (id : Nat)
  | bytesId (ns : Nat) (id : Nat)
  deriving DecidableEq, Repr

/-- The `ns=K;` part each `String()` method prepends for a non-zero
namespace. -/
def nsPart (ns : Nat) : List Char :=
  if ns = 0 then [] else "ns=".toList ++ natToDigits ns ++ [';']

/-- The `String()` methods of the four NodeId variants. -/
def nodeIdToString : NodeIdM → List Char
  | .numeric ns id => nsPart ns ++ "i=".toList ++ natToDigits id
  | .strId ns id => nsPart ns ++ "s=".toList ++ id
  | .guid ns id => nsPart ns ++ "g=".toList ++ natToDigits id
  | .bytesId ns id => nsPart ns ++ "b=".toList ++ natToDigits id

/-- `strings.HasPrefix(s, pfx)`. -/
def goStartsWith (s pfx : List Char) : Bool :=
  match pfx, s with
  | [], _ => true
  | _ :: _, [] => false
  | p :: ps, c :: cs => c == p && goStartsWith cs ps

/-- The `i=` / `s=` / `g=` / `b=` switch of `ua.ParseNodeIDString`,
after the namespace prefix has been stripped. -/
def parseNodeIdDispatch (ns : Nat) (s1 : List Char) : Option NodeIdM :=
  if goStartsWith s1 "i=".toList then
    match goParseUint (s1.drop 2) 32 with
    | none => none
    | some id => if id = 0 ∧ ns = 0 then none else some (.numeric ns id)
  else if goStartsWith s1 "s=".toList then some (.strId ns (s1.drop 2))
  else if goStartsWith s1 "g=".toList then
    match parseDigits (s1.drop 2) with
    | none => none
    | some g => some (.guid ns g)
  else if goStartsWith s1 "b=".toList then
    match parseDigits (s1.drop 2) with
    | none => none
    | some b => some (.bytesId ns b)
  else none

/-- `ua.ParseNodeIDString`: optional `ns=K;` prefix (16-bit), then
dispatch on `i=` / `s=` / `g=` / `b=`; `nil` (here `none`) on any parse
failure, and on the reserved `i=0` with namespace `0`. -/
def parseNodeIdString (s : List Char) : Option NodeIdM :=
  if goStartsWith s "ns=".toList then
    match breakAtFirst ';' s with
    | none => none
    | some (before, after) =>
      match goParseUint (before.drop 3) 16 with
      | none => none
      | some ns => parseNodeIdDispatch ns after
  else parseNodeIdDispatch 0 s

/-- Well-formed NodeIds: the namespace index is a `uint16` and a numeric
id a `uint32`, as in the Go struct fields. -/
def nodeIdWellFormed : NodeIdM → Prop
  | .numeric ns id => ns ≤ 65535 ∧ id ≤ 4294967295
  | .strId ns _ => ns ≤ 65535
  | .guid ns _ => ns ≤ 65535
  | .bytesId ns _ => ns ≤ 65535

/-! ## ExpandedNodeId parsing -/

/-- `ua.ExpandedNodeID`: server index, namespace URI and the inner
NodeId, which is a `nil`-able interface in Go (`none` here). -/
structure ExpandedNodeIdM where
  serverIndex : Nat
  namespaceURI : List Char
  nodeId : Option NodeIdM
  deriving DecidableEq, Repr

/-- `ua.NilExpandedNodeID`. -/
def NilExpandedNodeId : ExpandedNodeIdM := ⟨0, [], none⟩

/-- The tail of `ParseExpandedNodeID` after the `svr=` part: optional
`nsu=URI;`, then `ParseNodeID` on the rest.  When the trailing NodeId
fails to parse, the Go code calls `nodeId.GetIDType()` on a nil
interface, which panics — modelled as `none`. -/
def parseExpandedTail (svr : Nat) (s : List Char) : Option ExpandedNodeIdM :=
  if goStartsWith s "nsu=".toList then
    match breakAtFirst ';' s with
    | none => some NilExpandedNodeId
    | some (before, after) =>
      match parseNodeIdString after with
      | none => none
      | some nid => some ⟨svr, before.drop 4, some nid⟩
  else
    match parseNodeIdString s with
    | none => none
    | some nid => some ⟨svr, [], some nid⟩

/-- `ua.ParseExpandedNodeID`: optional `svr=N;` (32-bit) returning
`NilExpandedNodeID` on a malformed server part, then the tail. -/
def parseExpandedNodeId (s : List Char) : Option ExpandedNodeIdM :=
  if goStartsWith s "svr=".toList then
    match breakAtFirst ';' s with
    | none => some NilExpandedNodeId
    | some (before, after) =>
      match goParseUint (before.drop 4) 32 with
      | none => some NilExpandedNodeId
      | some svr => parseExpandedTail svr after
  else parseExpandedTail 0 s

/-! ## Spec-side predicates used in claim statements -/

/-- Whether the session roles grant a permission bit through the
role-permission list (the quantifier form of the nested loop in
`UserAccessLevel`). -/
def rolesGrant (roles : List Nat) (rps : List RolePermissionM) (bit : Nat) : Bool :=
  roles.any fun role => rps.any fun rp => rp.roleId == role && (rp.permissions &&& bit != 0)

/-- The OPC UA variant type of a supplied value, per the spec's data
model (arrays are classified by their element type). -/
def variantTypeOfSpec : GoValue → VType
  | .vnil => .VtNull
  | .scalar k _ => kindVT k
  | .str _ => .VtString
  | .bytestr _ => .VtByteString
  | .arr k _ => kindVT k
  | .strArr _ => .VtString
  | .byteStrArr _ => .VtByteString

/-- Array-family values (the spec's scalar/array distinction). -/
def isArrayValue : GoValue → Bool
  | .arr _ _ => true
  | .strArr _ => true
  | .byteStrArr _ => true
  | _ => false

/-- The spec's admission rule for a write: the supplied value's variant
type equals the destination type or the destination is `Variant`, and
the rank family agrees. -/
def typeRankAdmissible (destType : VType) (destRank : Int) (v : GoValue) : Bool :=
  (destType == variantTypeOfSpec v || destType == .VtVariant) &&
  (if isArrayValue v then arrayRankOk destRank else scalarRankOk destRank)

/-- Values whose dynamic type has its own case in the `writeValue` type
switch (`nil` is skipped; DiagnosticInfo values and the unrepresentable
scalar Variant/DataValue fall into the `default` case). -/
def claimClassified : GoValue → Bool
  | .vnil => false
  | .scalar k _ => k != .kDataValue && k != .kVariant && k != .kDiag
  | .arr k _ => k != .kDiag
  | _ => true

/-- Value within the length limits of `writeValue` (violations give
`BadOutOfRange` before the type check). -/
def lengthOk (caps : ServerCaps) : GoValue → Bool
  | .str cs => decide (cs.length ≤ caps.maxStringLength)
  | .bytestr bs => decide (bs.length ≤ caps.maxByteStringLength)
  | .arr _ xs => decide (xs.length ≤ caps.maxArrayLength)
  | .strArr xs => decide (xs.length ≤ caps.maxArrayLength)
  | .byteStrArr xs => decide (xs.length ≤ caps.maxArrayLength)
  | _ => true

/-! ## Round-trip lemmas for `writeRange` / `readRange` -/

theorem splitOn_not_mem {sep : Char} : ∀ {cs : List Char}, sep ∉ cs → splitOn sep cs = [cs]
  | [], _ => rfl
  | c :: cs, h => by
    have hc : ¬ c = sep := fun hc => h (hc ▸ List.mem_cons_self c cs)
    have hcs : sep ∉ cs := fun hm => h (List.mem_cons_of_mem c hm)
    simp only [splitOn, if_neg hc, splitOn_not_mem hcs]

theorem parseBoundsTail_not_bad {lo hi L lo' hi' : Int} {st : StatusCode}
    (hcond : hi = -1 ∨ lo < hi)
    (h : parseBoundsTail lo hi L = (lo', hi', st)) (hst : st.IsBad = false) :
    st = .Good ∧ 0 ≤ lo' ∧ lo' < hi' ∧ hi' ≤ L ∧ lo' = lo := by
  unfold parseBoundsTail at h
  by_cases h1 : lo < 0
  · rw [if_pos h1] at h
    injection h with h1' h2'
    injection h2' with h2' h3'
    subst h3'
    exact absurd hst (by decide)
  rw [if_neg h1] at h
  by_cases h2 : lo ≥ L
  · rw [if_pos h2] at h
    injection h with h1' h2'
    injection h2' with h2' h3'
    subst h3'
    exact absurd hst (by decide)
  rw [if_neg h2] at h
  simp only [] at h
  by_cases h3 : hi ≥ L
  · rw [if_pos h3] at h
    by_cases h4 : L - 1 = -1
    · rw [if_pos h4] at h
      injection h with h1' h2'
      injection h2' with h2' h3'
      subst h1' h2' h3'
      refine ⟨rfl, by omega, by omega, by omega, rfl⟩
    · rw [if_neg h4] at h
      injection h with h1' h2'
      injection h2' with h2' h3'
      subst h1' h2' h3'
      refine ⟨rfl, by omega, by omega, by omega, rfl⟩
  · rw [if_neg h3] at h
    by_cases h4 : hi = -1
    · rw [if_pos h4] at h
      injection h with h1' h2'
      injection h2' with h2' h3'
      subst h1' h2' h3'
      refine ⟨rfl, by omega, by omega, by omega, rfl⟩
    · rw [if_neg h4] at h
      injection h with h1' h2'
      injection h2' with h2' h3'
      subst h1' h2' h3'
      rcases hcond with hc | hc
      · exact absurd hc h4
      · refine ⟨rfl, by omega, by omega, by omega, rfl⟩

theorem parseBounds_not_bad {s : List Char} {L lo hi : Int} {st : StatusCode}
    (h : parseBounds s L = (lo, hi, st)) (hst : st.IsBad = false) (hL : 0 ≤ L) :
    st = .Good ∧ 0 ≤ lo ∧ lo < hi ∧ hi ≤ L := by
  unfold parseBounds at h
  by_cases hL0 : L = 0
  · rw [if_pos hL0] at h
    injection h with h1' h2'
    injection h2' with h2' h3'
    subst h3'
    exact absurd hst (by decide)
  rw [if_neg hL0] at h
  by_cases hse : s.isEmpty
  · rw [if_pos hse] at h
    injection h with h1' h2'
    injection h2' with h2' h3'
    subst h1' h2' h3'
    exact ⟨rfl, le_refl _, by omega, le_refl _⟩
  rw [if_neg hse] at h
  cases hbr : breakAtFirst ':' s with
  | none =>
    rw [hbr] at h
    cases hp : goParseInt s 32 with
    | none =>
      rw [hp] at h
      dsimp only at h
      injection h with h1' h2'
      injection h2' with h2' h3'
      subst h3'
      exact absurd hst (by decide)
    | some lo0 =>
      rw [hp] at h
      dsimp only at h
      obtain ⟨hg, hb0, hb1, hb2, -⟩ := parseBoundsTail_not_bad (Or.inl rfl) h hst
      exact ⟨hg, hb0, hb1, hb2⟩
  | some p =>
    obtain ⟨s1, s2⟩ := p
    rw [hbr] at h
    dsimp only at h
    cases hp1 : goParseInt s1 32 with
    | none =>
      rw [hp1] at h
      dsimp only at h
      injection h with h1' h2'
      injection h2' with h2' h3'
      subst h3'
      exact absurd hst (by decide)
    | some lo0 =>
      rw [hp1] at h
      dsimp only at h
      cases hp2 : goParseInt s2 32 with
      | none =>
        rw [hp2] at h
        dsimp only at h
        injection h with h1' h2'
        injection h2' with h2' h3'
        subst h3'
        exact absurd hst (by decide)
      | some hi0 =>
        rw [hp2] at h
        dsimp only at h
        by_cases hc1 : hi0 < 0
        · rw [if_pos hc1] at h
          injection h with h1' h2'
          injection h2' with h2' h3'
          subst h3'
          exact absurd hst (by decide)
        rw [if_neg hc1] at h
        by_cases hc2 : lo0 ≥ hi0
        · rw [if_pos hc2] at h
          injection h with h1' h2'
          injection h2' with h2' h3'
          subst h3'
          exact absurd hst (by decide)
        rw [if_neg hc2] at h
        obtain ⟨hg, hb0, hb1, hb2, -⟩ := parseBoundsTail_not_bad (Or.inr (by omega)) h hst
        exact ⟨hg, hb0, hb1, hb2⟩

theorem goSplice_length {α : Type} (xs ys : List α) (i : Int)
    (h : i.toNat + ys.length ≤ xs.length) :
    (goSplice xs i ys).length = xs.length := by
  simp only [goSplice, List.length_append, List.length_take, List.length_drop]
  omega

theorem goSlice_goSplice {α : Type} (xs ys : List α) (i j : Int)
    (_h0 : 0 ≤ i) (hij : i ≤ j) (hj : j ≤ (xs.length : Int))
    (hlen : (ys.length : Int) = j - i) :
    goSlice (goSplice xs i ys) i j = ys := by
  have htake : (xs.take i.toNat).length = i.toNat := by
    simp only [List.length_take]
    omega
  have hys : ys.length = (j - i).toNat := by omega
  simp only [goSlice, goSplice]
  rw [List.append_assoc, List.drop_left' htake, List.take_left' hys]

theorem writeRead_slice {α : Type} (xs ys : List α) (r : List Char) (i j : Int) (st : StatusCode)
    (hpb : parseBounds r (xs.length : Int) = (i, j, st)) (hst : st.IsBad = false)
    (hlen : j - i = (ys.length : Int)) :
    st = .Good ∧
    parseBounds r ((goSplice xs i ys).length : Int) = (i, j, st) ∧
    goSlice (goSplice xs i ys) i j = ys := by
  have hL : (0 : Int) ≤ (xs.length : Int) := Int.natCast_nonneg _
  obtain ⟨hg, hi0, hij, hj⟩ := parseBounds_not_bad hpb hst hL
  have hsp : (goSplice xs i ys).length = xs.length := goSplice_length _ _ _ (by omega)
  refine ⟨hg, by rw [hsp]; exact hpb, goSlice_goSplice xs ys i j hi0 (by omega) hj (by omega)⟩

theorem length_one_not_gt_one (r : List Char) : ¬ ([r].length > 1) := by simp

theorem length_one_not_gt_two (r : List Char) : ¬ ([r].length > 2) := by simp

/-- Core round trip: a single-dimension `writeRange` that returns `Good`
is undone by `readRange` over the same range, up to the refreshed
timestamps: the read-back `DataValue` carries exactly the written value
and status code. -/
theorem writeRange_readRange_roundTrip (v w res : DataValueM) (r : List Char) (now : Nat)
    (hdim : ',' ∉ r)
    (h : writeRange v w r now = some (res, .Good)) :
    (readRange res r).value = w.value ∧ (readRange res r).statusCode = w.statusCode := by
  by_cases hre : r.isEmpty
  · unfold writeRange at h
    rw [if_pos hre] at h
    injection h with h'
    injection h' with h1 h2
    subst h1
    unfold readRange
    rw [if_pos hre]
    exact ⟨rfl, rfl⟩
  · have hsp : splitOn ',' r = [r] := splitOn_not_mem hdim
    unfold writeRange at h
    rw [if_neg hre, hsp] at h
    dsimp only at h
    cases hv : v.value <;> rw [hv] at h <;> dsimp only at h
    all_goals try (injection h with h'; injection h' with h1 h2; exact StatusCode.noConfusion h2)
    case _ cs =>
      rw [if_neg (length_one_not_gt_one r)] at h
      rcases hpb : parseBounds r ((cs.length : Nat) : Int) with ⟨i, j, st⟩
      rw [show ([r].headD []) = r from rfl, hpb] at h
      dsimp only at h
      by_cases hb : st.IsBad = true
      · rw [if_pos hb] at h
        injection h with h'
        injection h' with h1 h2
        subst h2
        exact absurd hb (by decide)
      · have hbf : st.IsBad = false := by simpa using hb
        rw [if_neg hb] at h
        cases hw : w.value <;> rw [hw] at h <;> dsimp only at h
        all_goals try exact Option.noConfusion h
        case _ cs2 =>
          by_cases hlen : j - i = ((cs2.length : Nat) : Int)
          · rw [if_neg (not_not_intro hlen)] at h
            injection h with h'
            injection h' with h1 h2
            subst h1
            obtain ⟨hg, hpb2, hslice⟩ := writeRead_slice cs cs2 r i j st hpb hbf hlen
            unfold readRange
            rw [if_neg hre, hsp]
            dsimp only
            rw [if_neg (length_one_not_gt_one r), show ([r].headD []) = r from rfl, hpb2]
            dsimp only
            rw [if_neg hb]
            exact ⟨by simp [okRR, hslice, hw], by simp [okRR]⟩
          · rw [if_pos hlen] at h
            injection h with h'
            injection h' with h1 h2
            exact StatusCode.noConfusion h2
    case _ bs =>
      rw [if_neg (length_one_not_gt_one r)] at h
      rcases hpb : parseBounds r ((bs.length : Nat) : Int) with ⟨i, j, st⟩
      rw [show ([r].headD []) = r from rfl, hpb] at h
      dsimp only at h
      by_cases hb : st.IsBad = true
      · rw [if_pos hb] at h
        injection h with h'
        injection h' with h1 h2
        subst h2
        exact absurd hb (by decide)
      · have hbf : st.IsBad = false := by simpa using hb
        rw [if_neg hb] at h
        cases hw : w.value <;> rw [hw] at h <;> dsimp only at h
        all_goals try exact Option.noConfusion h
        case _ bs2 =>
          by_cases hlen : j - i = ((bs2.length : Nat) : Int)
          · rw [if_neg (not_not_intro hlen)] at h
            injection h with h'
            injection h' with h1 h2
            subst h1
            obtain ⟨hg, hpb2, hslice⟩ := writeRead_slice bs bs2 r i j st hpb hbf hlen
            unfold readRange
            rw [if_neg hre, hsp]
            dsimp only
            rw [if_neg (length_one_not_gt_one r), show ([r].headD []) = r from rfl, hpb2]
            dsimp only
            rw [if_neg hb]
            exact ⟨by simp [okRR, hslice, hw], by simp [okRR]⟩
          · rw [if_pos hlen] at h
            injection h with h'
            injection h' with h1 h2
            exact StatusCode.noConfusion h2
    case _ k xs =>
      rw [if_neg (length_one_not_gt_one r)] at h
      rcases hpb : parseBounds r ((xs.length : Nat) : Int) with ⟨i, j, st⟩
      rw [show ([r].headD []) = r from rfl, hpb] at h
      dsimp only at h
      by_cases hb : st.IsBad = true
      · rw [if_pos hb] at h
        injection h with h'
        injection h' with h1 h2
        subst h2
        exact absurd hb (by decide)
      · have hbf : st.IsBad = false := by simpa using hb
        rw [if_neg hb] at h
        cases hw : w.value <;> rw [hw] at h <;> dsimp only at h
        all_goals try exact Option.noConfusion h
        case _ k2 ys =>
          by_cases hk : k2 = k
          · rw [if_pos hk] at h
            subst hk
            by_cases hlen : j - i = ((ys.length : Nat) : Int)
            · rw [if_neg (not_not_intro hlen)] at h
              injection h with h'
              injection h' with h1 h2
              subst h1
              obtain ⟨hg, hpb2, hslice⟩ := writeRead_slice xs ys r i j st hpb hbf hlen
              unfold readRange
              rw [if_neg hre, hsp]
              dsimp only
              rw [if_neg (length_one_not_gt_one r), show ([r].headD []) = r from rfl, hpb2]
              dsimp only
              rw [if_neg hb]
              exact ⟨by simp [okRR, hslice, hw], by simp [okRR]⟩
            · rw [if_pos hlen] at h
              injection h with h'
              injection h' with h1 h2
              exact StatusCode.noConfusion h2
          · rw [if_neg hk] at h
            exact Option.noConfusion h
    case _ xs =>
      rw [if_neg (length_one_not_gt_two r)] at h
      rcases hpb : parseBounds r ((xs.length : Nat) : Int) with ⟨i, j, st⟩
      rw [show ([r].headD []) = r from rfl, hpb] at h
      dsimp only at h
      by_cases hb : st.IsBad = true
      · rw [if_pos hb] at h
        injection h with h'
        injection h' with h1 h2
        subst h2
        exact absurd hb (by decide)
      · have hbf : st.IsBad = false := by simpa using hb
        rw [if_neg hb] at h
        cases hw : w.value <;> rw [hw] at h <;> dsimp only at h
        all_goals try exact Option.noConfusion h
        case _ ys =>
          by_cases hlen : j - i = ((ys.length : Nat) : Int)
          · rw [if_neg (not_not_intro hlen)] at h
            injection h with h'
            injection h' with h1 h2
            subst h1
            obtain ⟨hg, hpb2, hslice⟩ := writeRead_slice xs ys r i j st hpb hbf hlen
            unfold readRange
            rw [if_neg hre, hsp]
            dsimp only
            rw [if_neg (length_one_not_gt_two r), show ([r].headD []) = r from rfl, hpb2]
            dsimp only
            rw [if_neg hb, if_neg (length_one_not_gt_one r)]
            exact ⟨by simp [okRR, hslice, hw], by simp [okRR]⟩
          · rw [if_pos hlen] at h
            injection h with h'
            injection h' with h1 h2
            exact StatusCode.noConfusion h2
    case _ xs =>
      rw [if_neg (length_one_not_gt_two r)] at h
      rcases hpb : parseBounds r ((xs.length : Nat) : Int) with ⟨i, j, st⟩
      rw [show ([r].headD []) = r from rfl, hpb] at h
      dsimp only at h
      by_cases hb : st.IsBad = true
      · rw [if_pos hb] at h
        injection h with h'
        injection h' with h1 h2
        subst h2
        exact absurd hb (by decide)
      · have hbf : st.IsBad = false := by simpa using hb
        rw [if_neg hb] at h
        cases hw : w.value <;> rw [hw] at h <;> dsimp only at h
        all_goals try exact Option.noConfusion h
        case _ ys =>
          by_cases hlen : j - i = ((ys.length : Nat) : Int)
          · rw [if_neg (not_not_intro hlen)] at h
            injection h with h'
            injection h' with h1 h2
            subst h1
            obtain ⟨hg, hpb2, hslice⟩ := writeRead_slice xs ys r i j st hpb hbf hlen
            unfold readRange
            rw [if_neg hre, hsp]
            dsimp only
            rw [if_neg (length_one_not_gt_two r), show ([r].headD []) = r from rfl, hpb2]
            dsimp only
            rw [if_neg hb, if_neg (length_one_not_gt_one r)]
            exact ⟨by simp [okRR, hslice, hw], by simp [okRR]⟩
          · rw [if_pos hlen] at h
            injection h with h'
            injection h' with h1 h2
            exact StatusCode.noConfusion h2

/-! ## C1: `parseBounds` conforms to the index-range rules -/

/-- C1: `parseBounds` conforms to the spec's index-range rules for every
range string and length: a `lo:hi` range with `lo < 0`, `hi < 0` or
`lo >= hi` returns `BadIndexRangeInvalid` (when the length is not the
zero that short-circuits to `BadIndexRangeNoData`); a single index
`lo >= length` returns `BadIndexRangeNoData`, as does any call with
length `0`; an in-range `lo:hi` clamps `hi` to `length-1` and returns
the end-exclusive pair `(lo, min hi (length-1) + 1)` with `Good`; and
the five concrete examples of the spec evaluate as stated. -/
theorem parseBounds_conforms_spec :
    (∀ (s s1 s2 : List Char) (lo hi L : Int),
       breakAtFirst ':' s = some (s1, s2) →
       goParseInt s1 32 = some lo → goParseInt s2 32 = some hi →
       (lo < 0 ∨ hi < 0 ∨ lo ≥ hi) → L ≠ 0 →
       parseBounds s L = (-1, -1, .BadIndexRangeInvalid)) ∧
    (∀ (s : List Char) (lo L : Int),
       breakAtFirst ':' s = none → goParseInt s 32 = some lo →
       0 < L → lo ≥ L →
       parseBounds s L = (-1, -1, .BadIndexRangeNoData)) ∧
    (∀ s : List Char, parseBounds s 0 = (-1, -1, .BadIndexRangeNoData)) ∧
    (∀ (s s1 s2 : List Char) (lo hi L : Int),
       breakAtFirst ':' s = some (s1, s2) →
       goParseInt s1 32 = some lo → goParseInt s2 32 = some hi →
       0 ≤ lo → lo < hi → lo < L →
       parseBounds s L = (lo, min hi (L - 1) + 1, .Good)) ∧
    parseBounds "5:5".toList 10 = (-1, -1, .BadIndexRangeInvalid) ∧
    parseBounds "5:4".toList 10 = (-1, -1, .BadIndexRangeInvalid) ∧
    parseBounds "10".toList 10 = (-1, -1, .BadIndexRangeNoData) ∧
    parseBounds "".toList 0 = (-1, -1, .BadIndexRangeNoData) ∧
    parseBounds "3:100".toList 10 = (3, 10, .Good) := by
  refine ⟨?_, ?_, ?_, ?_, by decide, by decide, by decide, by decide, by decide⟩
  · intro s s1 s2 lo hi L hbr hp1 hp2 hbad hL
    have hne : ¬ s.isEmpty := by
      cases s with
      | nil => cases hbr
      | cons c cs => simp
    unfold parseBounds
    rw [if_neg hL, if_neg hne, hbr]
    dsimp only
    rw [hp1]
    dsimp only
    rw [hp2]
    dsimp only
    by_cases hc1 : hi < 0
    · rw [if_pos hc1]
    rw [if_neg hc1]
    by_cases hc2 : lo ≥ hi
    · rw [if_pos hc2]
    rw [if_neg hc2]
    have hlo : lo < 0 := by omega
    unfold parseBoundsTail
    rw [if_pos hlo]
  · intro s lo L hbr hp h0 hge
    have hne : ¬ s.isEmpty := by
      intro he
      rw [List.isEmpty_iff] at he
      subst he
      simp [goParseInt, parseDigits] at hp
    unfold parseBounds
    rw [if_neg (by omega), if_neg hne, hbr, hp]
    dsimp only
    unfold parseBoundsTail
    rw [if_neg (by omega), if_pos hge]
  · intro s
    unfold parseBounds
    rw [if_pos rfl]
  · intro s s1 s2 lo hi L hbr hp1 hp2 h0 hlh hlt
    have hne : ¬ s.isEmpty := by
      cases s with
      | nil => cases hbr
      | cons c cs => simp
    unfold parseBounds
    rw [if_neg (by omega), if_neg hne, hbr]
    dsimp only
    rw [hp1]
    dsimp only
    rw [hp2]
    dsimp only
    rw [if_neg (by omega), if_neg (by omega)]
    unfold parseBoundsTail
    rw [if_neg (by omega), if_neg (by omega)]
    dsimp only
    by_cases hc : hi ≥ L
    · rw [if_pos hc, if_neg (by omega)]
      simp only [Prod.mk.injEq]
      refine ⟨by trivial, by omega, by trivial⟩
    · rw [if_neg hc, if_neg (by omega)]
      simp only [Prod.mk.injEq]
      refine ⟨by trivial, by omega, by trivial⟩

/-- Witness for C1: the four universally quantified rules applied at
concrete inputs. -/
theorem parseBounds_conforms_spec_witness :
    parseBounds "1:1".toList 5 = (-1, -1, .BadIndexRangeInvalid) ∧
    parseBounds "7".toList 5 = (-1, -1, .BadIndexRangeNoData) ∧
    parseBounds "q".toList 0 = (-1, -1, .BadIndexRangeNoData) ∧
    parseBounds "1:3".toList 10 = (1, 4, .Good) := by
  obtain ⟨h1, h2, h3, h4, -⟩ := parseBounds_conforms_spec
  refine ⟨h1 "1:1".toList "1".toList "1".toList 1 1 5 (by decide) (by decide) (by decide)
      (Or.inr (Or.inr (by decide))) (by decide),
    h2 "7".toList 7 5 (by decide) (by decide) (by decide) (by decide),
    h3 "q".toList, ?_⟩
  have h := h4 "1:3".toList "1".toList "3".toList 1 3 10 (by decide) (by decide) (by decide)
    (by decide) (by decide) (by decide)
  simpa using h

/-! ## C4: write/read round trip -/

/-- C4 counterexample: with a two-dimensional index range on an array of
strings, `writeRange` succeeds with `Good` but ignores the inner
dimension, while `readRange` applies it, so reading the written result
back does not return the incoming value. -/
theorem writeRange_readRange_two_dim_cex :
    writeRange ⟨.strArr [['a','b'], ['c','d']], .Good, 0, 0, 0, 0⟩
        ⟨.strArr [['x','y']], .Good, 0, 0, 0, 0⟩ "0,0".toList 7 =
      some (⟨.strArr [['x','y'], ['c','d']], .Good, 7, 0, 7, 0⟩, .Good) ∧
    (readRange ⟨.strArr [['x','y'], ['c','d']], .Good, 7, 0, 7, 0⟩ "0,0".toList).value =
      .strArr [['x']] ∧
    GoValue.strArr [['x']] ≠ GoValue.strArr [['x','y']] := by decide

/-- Witness for C4 (amended): the round trip applied at a concrete
single-dimension write. -/
theorem writeRange_readRange_roundTrip_witness :
    (readRange ⟨.arr .kInt32 [1, 9, 3], .Good, 5, 0, 5, 0⟩ "1".toList).value =
      GoValue.arr .kInt32 [9] ∧
    (readRange ⟨.arr .kInt32 [1, 9, 3], .Good, 5, 0, 5, 0⟩ "1".toList).statusCode = .Good := by
  have h := writeRange_readRange_roundTrip ⟨.arr .kInt32 [1, 2, 3], .Good, 0, 0, 0, 0⟩
    ⟨.arr .kInt32 [9], .Good, 0, 0, 0, 0⟩ ⟨.arr .kInt32 [1, 9, 3], .Good, 5, 0, 5, 0⟩
    "1".toList 5 (by decide) (by decide)
  simpa using h

/-! ## C3: Value-attribute read gates -/

/-- C3: for a Read of the Value attribute resolving to a VariableNode the
user may browse: a node whose AccessLevel lacks CurrentRead yields
`BadNotReadable`; otherwise a user access level lacking CurrentRead
yields `BadUserAccessDenied`; otherwise the installed ReadValueHandler
is called, else `readRange` of the current value over the requested
range; in particular AccessLevel `0` always yields `BadNotReadable`. -/
theorem readValue_value_gates :
    ∀ (n : VariableNodeM) (ctx : Option SessionM) (r : List Char) (now : Nat),
      (n.accessLevel &&& AccessLevelsCurrentRead = 0 →
        readValueVar n ctx r now = errDV .BadNotReadable now) ∧
      (n.accessLevel &&& AccessLevelsCurrentRead ≠ 0 →
        userAccessLevel n ctx &&& AccessLevelsCurrentRead = 0 →
        readValueVar n ctx r now = errDV .BadUserAccessDenied now) ∧
      (n.accessLevel &&& AccessLevelsCurrentRead ≠ 0 →
        userAccessLevel n ctx &&& AccessLevelsCurrentRead ≠ 0 →
        ∀ f, n.readHandler = some f → readValueVar n ctx r now = f r) ∧
      (n.accessLevel &&& AccessLevelsCurrentRead ≠ 0 →
        userAccessLevel n ctx &&& AccessLevelsCurrentRead ≠ 0 →
        n.readHandler = none → readValueVar n ctx r now = readRange n.value r) ∧
      (n.accessLevel = 0 → (readValueVar n ctx r now).statusCode = .BadNotReadable) := by
  intro n ctx r now
  refine ⟨?_, ?_, ?_, ?_, ?_⟩
  · intro h1
    unfold readValueVar
    rw [if_pos h1]
  · intro h1 h2
    unfold readValueVar
    rw [if_neg h1, if_pos h2]
  · intro h1 h2 f hf
    unfold readValueVar
    rw [if_neg h1, if_neg h2, hf]
  · intro h1 h2 hf
    unfold readValueVar
    rw [if_neg h1, if_neg h2, hf]
  · intro h0
    unfold readValueVar
    rw [if_pos (by rw [h0]; rfl)]
    rfl

/-- Witness for C3: concrete nodes exercising each gate. -/
theorem readValue_value_gates_witness :
    readValueVar ⟨0, none, NilDataValue, .VtInt32, -1, none, none⟩ none [] 3 =
      errDV .BadNotReadable 3 ∧
    readValueVar ⟨1, none, NilDataValue, .VtInt32, -1, none, none⟩ none [] 3 =
      errDV .BadUserAccessDenied 3 ∧
    readValueVar ⟨1, some [⟨5, PermissionTypeRead⟩], NilDataValue, .VtInt32, -1, none, none⟩
      (some ⟨[5], []⟩) [] 3 = NilDataValue := by
  refine ⟨(readValue_value_gates _ none [] 3).1 (by decide),
    (readValue_value_gates _ none [] 3).2.1 (by decide) (by decide), ?_⟩
  have h := (readValue_value_gates
      ⟨1, some [⟨5, PermissionTypeRead⟩], NilDataValue, .VtInt32, -1, none, none⟩
      (some ⟨[5], []⟩) [] 3).2.2.2.1 (by decide) (by decide) rfl
  simpa using h

/-! ## C10: user access level never exceeds the node access level -/

theorem testBit_goAndNot (a b i : Nat) :
    (goAndNot a b).testBit i = (a.testBit i && !(b.testBit i)) := by
  rw [goAndNot, Nat.testBit_xor, Nat.testBit_land]
  cases h1 : a.testBit i <;> cases h2 : b.testBit i <;> rfl

theorem testBit_one_iff (i : Nat) : (1 : Nat).testBit i = decide (i = 0) := by
  rw [show (1 : Nat) = 2 ^ 0 from rfl, Nat.testBit_two_pow]
  simp [eq_comm]

theorem testBit_two_iff (i : Nat) : (2 : Nat).testBit i = decide (i = 1) := by
  rw [show (2 : Nat) = 2 ^ 1 from rfl, Nat.testBit_two_pow]
  simp [eq_comm]

theorem testBit_four_iff (i : Nat) : (4 : Nat).testBit i = decide (i = 2) := by
  rw [show (4 : Nat) = 2 ^ 2 from rfl, Nat.testBit_two_pow]
  simp [eq_comm]

theorem testBit_condClear (al bit : Nat) (flag : Bool) (i : Nat) :
    (if flag = true then al else goAndNot al bit).testBit i =
      (al.testBit i && (flag || !(bit.testBit i))) := by
  cases flag
  · simp [testBit_goAndNot]
  · simp

theorem permFlags_inner (role : Nat) :
    ∀ (rps : List RolePermissionM) (acc : Bool × Bool × Bool),
      rps.foldl
        (fun acc rp =>
          if rp.roleId = role then
            (acc.1 || (rp.permissions &&& PermissionTypeRead != 0),
             acc.2.1 || (rp.permissions &&& PermissionTypeWrite != 0),
             acc.2.2 || (rp.permissions &&& PermissionTypeReadHistory != 0))
          else acc)
        acc =
      (acc.1 || rps.any fun rp => rp.roleId == role && (rp.permissions &&& PermissionTypeRead != 0),
       acc.2.1 || rps.any fun rp => rp.roleId == role && (rp.permissions &&& PermissionTypeWrite != 0),
       acc.2.2 || rps.any fun rp => rp.roleId == role && (rp.permissions &&& PermissionTypeReadHistory != 0))
  | [], acc => by simp
  | rp :: rest, acc => by
    rw [List.foldl_cons]
    by_cases hrole : rp.roleId = role
    · rw [if_pos hrole, permFlags_inner role rest]
      simp [hrole, Bool.or_assoc]
    · rw [if_neg hrole, permFlags_inner role rest]
      have : (rp.roleId == role) = false := by simpa using hrole
      simp [this]

theorem permFlagsFor_eq :
    ∀ (roles : List Nat) (rps : List RolePermissionM),
      permFlagsFor roles rps =
        (rolesGrant roles rps PermissionTypeRead,
         rolesGrant roles rps PermissionTypeWrite,
         rolesGrant roles rps PermissionTypeReadHistory) := by
  have main : ∀ (rps : List RolePermissionM) (roles : List Nat) (acc : Bool × Bool × Bool),
      roles.foldl
        (fun acc role =>
          rps.foldl
            (fun acc rp =>
              if rp.roleId = role then
                (acc.1 || (rp.permissions &&& PermissionTypeRead != 0),
                 acc.2.1 || (rp.permissions &&& PermissionTypeWrite != 0),
                 acc.2.2 || (rp.permissions &&& PermissionTypeReadHistory != 0))
              else acc)
            acc)
        acc =
      (acc.1 || rolesGrant roles rps PermissionTypeRead,
       acc.2.1 || rolesGrant roles rps PermissionTypeWrite,
       acc.2.2 || rolesGrant roles rps PermissionTypeReadHistory) := by
    intro rps roles
    induction roles with
    | nil => intro acc; simp [rolesGrant]
    | cons role rest ih =>
      intro acc
      rw [List.foldl_cons, permFlags_inner role rps acc, ih]
      simp [rolesGrant, Bool.or_assoc]
  intro roles rps
  rw [permFlagsFor, main rps roles (false, false, false)]
  simp

/-- C10: `UserAccessLevel` never exceeds the node's own access level:
with no session in the context the result is `0`; the result or-ed with
`GetAccessLevel()` is `GetAccessLevel()` (no bit is ever added); and
bitwise, the result keeps every bit of the access level except that the
`CurrentRead` (1), `CurrentWrite` (2) and `HistoryRead` (4) bits are
cleared exactly when the session's roles lack the `Read`, `Write`,
`ReadHistory` permission respectively. -/
theorem userAccessLevel_conforms :
    ∀ (n : VariableNodeM) (ctx : Option SessionM),
      (ctx = none → userAccessLevel n ctx = 0) ∧
      (userAccessLevel n ctx ||| n.accessLevel = n.accessLevel) ∧
      (∀ s, ctx = some s → ∀ i : Nat,
        (userAccessLevel n ctx).testBit i =
          (n.accessLevel.testBit i &&
            (if i = 0 then rolesGrant s.userRoles (effectiveRolePermissions n s) PermissionTypeRead
             else if i = 1 then
               rolesGrant s.userRoles (effectiveRolePermissions n s) PermissionTypeWrite
             else if i = 2 then
               rolesGrant s.userRoles (effectiveRolePermissions n s) PermissionTypeReadHistory
             else true))) := by
  have key : ∀ (n : VariableNodeM) (s : SessionM) (i : Nat),
      (userAccessLevel n (some s)).testBit i =
        (n.accessLevel.testBit i &&
          (if i = 0 then rolesGrant s.userRoles (effectiveRolePermissions n s) PermissionTypeRead
           else if i = 1 then
             rolesGrant s.userRoles (effectiveRolePermissions n s) PermissionTypeWrite
           else if i = 2 then
             rolesGrant s.userRoles (effectiveRolePermissions n s) PermissionTypeReadHistory
           else true)) := by
    intro n s i
    unfold userAccessLevel
    dsimp only
    rw [permFlagsFor_eq]
    dsimp only
    simp only [testBit_condClear, AccessLevelsCurrentRead, AccessLevelsCurrentWrite,
      AccessLevelsHistoryRead, testBit_one_iff, testBit_two_iff, testBit_four_iff]
    by_cases e0 : i = 0
    · subst e0
      simp
    · by_cases e1 : i = 1
      · subst e1
        simp
      · by_cases e2 : i = 2
        · subst e2
          simp
        · simp [e0, e1, e2]
  intro n ctx
  refine ⟨fun hn => by rw [hn]; rfl, ?_, fun s hs i => by rw [hs]; exact key n s i⟩
  cases ctx with
  | none => simp [userAccessLevel]
  | some s =>
    apply Nat.eq_of_testBit_eq
    intro i
    rw [Nat.testBit_lor, key n s i]
    cases h : n.accessLevel.testBit i <;> simp [h]

/-- Witness for C10: a node with all three value-access bits and an
empty-role session loses all of them; the no-session context yields 0. -/
theorem userAccessLevel_conforms_witness :
    userAccessLevel ⟨7, none, NilDataValue, .VtInt32, -1, none, none⟩ none = 0 ∧
    (userAccessLevel ⟨7, none, NilDataValue, .VtInt32, -1, none, none⟩
      (some ⟨[], []⟩)).testBit 0 = false := by
  refine ⟨(userAccessLevel_conforms _ none).1 rfl, ?_⟩
  have h := (userAccessLevel_conforms ⟨7, none, NilDataValue, .VtInt32, -1, none, none⟩
    (some ⟨[], []⟩)).2.2 ⟨[], []⟩ rfl 0
  rw [h]
  decide

/-! ## C2: write type and rank enforcement -/

theorem check_two_ifs (d req : VType) (rankOkB : Bool)
    (h : ((d == req || d == .VtVariant) && rankOkB) = false) :
    (if d != req && d != .VtVariant then some StatusCode.BadTypeMismatch
     else if !rankOkB then some StatusCode.BadTypeMismatch else none) =
      some StatusCode.BadTypeMismatch := by
  cases hd : d == req <;> cases hv : d == VType.VtVariant <;> cases hr : rankOkB <;>
    simp_all [bne]

theorem checkTypeRank_violation (caps : ServerCaps) (d : VType) (rk : Int) (v : GoValue)
    (hcl : claimClassified v = true) (hlen : lengthOk caps v = true)
    (hadm : typeRankAdmissible d rk v = false) :
    checkTypeRank caps d rk v = some .BadTypeMismatch := by
  cases v with
  | vnil => exact absurd hcl (by decide)
  | scalar k tok =>
    cases k <;>
      try (apply check_two_ifs
           simpa [typeRankAdmissible, variantTypeOfSpec, kindVT, isArrayValue] using hadm)
    all_goals simp [claimClassified] at hcl
  | str cs =>
    have hl : ¬ cs.length > caps.maxStringLength := by
      simpa [lengthOk] using hlen
    rw [checkTypeRank, if_neg hl]
    apply check_two_ifs
    simpa [typeRankAdmissible, variantTypeOfSpec, isArrayValue] using hadm
  | bytestr bs =>
    have hl : ¬ bs.length > caps.maxByteStringLength := by
      simpa [lengthOk] using hlen
    rw [checkTypeRank, if_neg hl]
    apply check_two_ifs
    simpa [typeRankAdmissible, variantTypeOfSpec, isArrayValue] using hadm
  | arr k xs =>
    have hl : ¬ xs.length > caps.maxArrayLength := by
      simpa [lengthOk] using hlen
    cases k <;>
      try (rw [checkTypeRank]
           dsimp only [arrayCaseVT]
           rw [if_neg hl]
           apply check_two_ifs
           simpa [typeRankAdmissible, variantTypeOfSpec, kindVT, isArrayValue] using hadm)
    all_goals simp [claimClassified] at hcl
  | strArr xs =>
    have hl : ¬ xs.length > caps.maxArrayLength := by
      simpa [lengthOk] using hlen
    rw [checkTypeRank, if_neg hl]
    apply check_two_ifs
    simpa [typeRankAdmissible, variantTypeOfSpec, isArrayValue] using hadm
  | byteStrArr xs =>
    have hl : ¬ xs.length > caps.maxArrayLength := by
      simpa [lengthOk] using hlen
    rw [checkTypeRank, if_neg hl]
    apply check_two_ifs
    simpa [typeRankAdmissible, variantTypeOfSpec, isArrayValue] using hadm

/-- C2: a Write of the Value attribute on a VariableNode that passes the
access-level gates enforces the type and rank discipline: after the two
special coercions, a supplied value (of a dynamic type the switch
enumerates, within the length limits) whose variant type differs from
the destination type (unless the destination is `Variant`) or whose
scalar/array shape disagrees with the value rank is rejected with
`BadTypeMismatch` and the node value is not updated; and the two
coercions hold — a `ByteString` written to a rank-one `Byte` variable is
handled exactly as the equal byte array, and a byte array written to a
scalar `ByteString` variable exactly as the equal (same-length)
`ByteString`. -/
theorem writeValue_type_rank_check :
    ∀ (caps : ServerCaps) (n : VariableNodeM) (ctx : Option SessionM) (wv : DataValueM)
      (r : List Char) (now : Nat),
      (n.accessLevel &&& AccessLevelsCurrentWrite ≠ 0 →
       userAccessLevel n ctx &&& AccessLevelsCurrentWrite ≠ 0 →
       claimClassified (coerceSpecial n.dataTypeVT n.valueRank wv.value) = true →
       lengthOk caps (coerceSpecial n.dataTypeVT n.valueRank wv.value) = true →
       typeRankAdmissible n.dataTypeVT n.valueRank
         (coerceSpecial n.dataTypeVT n.valueRank wv.value) = false →
       writeValueVar caps n ctx wv r now = some (.BadTypeMismatch, none)) ∧
      (n.dataTypeVT = .VtByte → n.valueRank = ValueRankOneDimension →
       ∀ bs, wv.value = .bytestr bs →
       writeValueVar caps n ctx wv r now =
         writeValueVar caps n ctx { wv with value := .arr .kByte bs } r now) ∧
      (n.dataTypeVT = .VtByteString → n.valueRank = ValueRankScalar →
       ∀ bs, wv.value = .arr .kByte bs →
       writeValueVar caps n ctx wv r now =
         writeValueVar caps n ctx { wv with value := .bytestr bs } r now) := by
  intro caps n ctx wv r now
  refine ⟨?_, ?_, ?_⟩
  · intro h1 h2 hcl hlen hadm
    unfold writeValueVar
    rw [if_neg h1, if_neg h2]
    dsimp only
    rw [checkTypeRank_violation caps n.dataTypeVT n.valueRank _ hcl hlen hadm]
  · intro hd hr bs hv
    have hco : coerceSpecial n.dataTypeVT n.valueRank (GoValue.bytestr bs) =
        coerceSpecial n.dataTypeVT n.valueRank (GoValue.arr .kByte bs) := by
      simp [coerceSpecial, hd, hr, ValueRankOneDimension, ValueRankScalar]
    unfold writeValueVar
    dsimp only
    rw [hv, hco]
  · intro hd hr bs hv
    have hco : coerceSpecial n.dataTypeVT n.valueRank (GoValue.arr .kByte bs) =
        coerceSpecial n.dataTypeVT n.valueRank (GoValue.bytestr bs) := by
      simp [coerceSpecial, hd, hr, ValueRankOneDimension, ValueRankScalar]
    unfold writeValueVar
    dsimp only
    rw [hv, hco]

/-- Witness for C2: writing the array `[1,2,3]` to a scalar `Int32`
variable returns `BadTypeMismatch`; the byte-array/ByteString coercion
instances at concrete values. -/
theorem writeValue_type_rank_check_witness :
    writeValueVar ⟨100, 100, 100⟩
        ⟨2, some [⟨5, PermissionTypeWrite⟩], ⟨.scalar .kInt32 0, .Good, 0, 0, 0, 0⟩,
          .VtInt32, -1, none, none⟩
        (some ⟨[5], []⟩) ⟨.arr .kInt32 [1, 2, 3], .Good, 0, 0, 0, 0⟩ [] 0 =
      some (.BadTypeMismatch, none) ∧
    writeValueVar ⟨100, 100, 100⟩
        ⟨2, some [⟨5, PermissionTypeWrite⟩], ⟨.bytestr [7, 8], .Good, 0, 0, 0, 0⟩,
          .VtByteString, -1, none, none⟩
        (some ⟨[5], []⟩) ⟨.arr .kByte [1, 2, 3], .Good, 0, 0, 0, 0⟩ [] 0 =
      writeValueVar ⟨100, 100, 100⟩
        ⟨2, some [⟨5, PermissionTypeWrite⟩], ⟨.bytestr [7, 8], .Good, 0, 0, 0, 0⟩,
          .VtByteString, -1, none, none⟩
        (some ⟨[5], []⟩) ⟨.bytestr [1, 2, 3], .Good, 0, 0, 0, 0⟩ [] 0 := by
  constructor
  · exact (writeValue_type_rank_check ⟨100, 100, 100⟩
      ⟨2, some [⟨5, PermissionTypeWrite⟩], ⟨.scalar .kInt32 0, .Good, 0, 0, 0, 0⟩,
        .VtInt32, -1, none, none⟩
      (some ⟨[5], []⟩) ⟨.arr .kInt32 [1, 2, 3], .Good, 0, 0, 0, 0⟩ [] 0).1
      (by decide) (by decide) (by decide) (by decide) (by decide)
  · exact (writeValue_type_rank_check ⟨100, 100, 100⟩
      ⟨2, some [⟨5, PermissionTypeWrite⟩], ⟨.bytestr [7, 8], .Good, 0, 0, 0, 0⟩,
        .VtByteString, -1, none, none⟩
      (some ⟨[5], []⟩) ⟨.arr .kByte [1, 2, 3], .Good, 0, 0, 0, 0⟩ [] 0).2.2
      rfl rfl [1, 2, 3] rfl

/-! ## C6: deadband filters require a numeric destination type -/

/-- C6: when creating a monitored item of kind Value that passes the
access and index-range gates, a `DataChangeFilter` with a non-`None`
deadband type is accepted (status `Good`, item appended) exactly when the
variable's destination variant type is one of the ten numeric types; for
every other destination type the per-item status is
`BadFilterNotAllowed` and no item is created. -/
theorem cmi_deadband_requires_numeric :
    ∀ (n : VariableNodeM) (ctx : Option SessionM) (dcf : DataChangeFilterM),
      n.accessLevel &&& AccessLevelsCurrentRead ≠ 0 →
      userAccessLevel n ctx &&& AccessLevelsCurrentRead ≠ 0 →
      dcf.deadbandType ≠ DeadbandTypeNone →
      (numericVT n.dataTypeVT = false →
        cmiValueBranch n ctx .Good (.dataChange dcf) = (.BadFilterNotAllowed, false)) ∧
      (numericVT n.dataTypeVT = true →
        cmiValueBranch n ctx .Good (.dataChange dcf) = (.Good, true)) := by
  intro n ctx dcf h1 h2 hdb
  constructor
  · intro hnum
    unfold cmiValueBranch
    rw [if_neg h1, if_neg h2, if_neg (by simp)]
    dsimp only
    rw [if_pos hdb, hnum]
    rfl
  · intro hnum
    unfold cmiValueBranch
    rw [if_neg h1, if_neg h2, if_neg (by simp)]
    dsimp only
    rw [if_pos hdb, hnum]
    rfl

/-- Witness for C6: a String-typed variable with an absolute-deadband
filter is rejected with `BadFilterNotAllowed`. -/
theorem cmi_deadband_requires_numeric_witness :
    cmiValueBranch ⟨1, some [⟨5, PermissionTypeRead⟩], NilDataValue, .VtString, -1, none, none⟩
      (some ⟨[5], []⟩) .Good (.dataChange ⟨1, 1, 0⟩) = (.BadFilterNotAllowed, false) := by
  exact (cmi_deadband_requires_numeric
    ⟨1, some [⟨5, PermissionTypeRead⟩], NilDataValue, .VtString, -1, none, none⟩
    (some ⟨[5], []⟩) ⟨1, 1, 0⟩ (by decide) (by decide) (by decide)).1 (by decide)

/-! ## C7: project-manager transition table -/

/-- C7 counterexample: `ErrorOccured` is configured only in `Loading`;
from `Unloaded` (and the other states) firing it is not permitted, so it
does not lead to `Error` from every state. -/
theorem pm_errorOccured_only_loading_cex :
    pmStep .unloaded .errorOccured = none ∧
    pmStep .loaded .errorOccured = none ∧
    pmStep .error .errorOccured = none ∧
    pmStep .reload .errorOccured = none ∧
    pmCanFire .unloaded .errorOccured = false := by decide

/-- C7 (amended): the state machine permits exactly the claimed
transitions — Unloaded→Loading (LoadProject), Loading→Loaded
(LoadSuccess), Loaded→Reload and Error→Reload (ReloadProject),
Reload→Loading (LoadProject), the three internal plugin triggers valid
only in Loaded — together with Loading→Error (ErrorOccurred), the only
state where ErrorOccurred is permitted. -/
theorem pm_transitions_exact : ∀ (s : PMState) (t : PMTrigger), pmStep s t = pmStepSpec s t := by
  intro s t
  cases s <;> cases t <;> rfl

/-! ## C8: GetCurrentError vs HasError -/

/-- C8 counterexample: a freshly created manager is in `Unloaded` with no
recorded error, and `GetCurrentError` returns `nil` there, not the
distinguished `ProjectNotLoaded` error. -/
theorem getCurrentError_unloaded_cex :
    NewProjectManagerM.state = .unloaded ∧
    GetCurrentError NewProjectManagerM = none ∧
    (none : Option PMErr) ≠ some .projectNotLoaded := by decide

/-- C8 (amended): `GetCurrentError` returns the recorded error
unconditionally (so in the `Error` state it is the recorded load error);
the state dispatch the claim describes is implemented by `HasError`,
which returns the recorded error in `Error`, the distinguished
`ProjectNotLoaded` in `Unloaded`, and no error otherwise. -/
theorem projectError_dispatch :
    ∀ p : ProjectManagerM,
      GetCurrentError p = p.currentError ∧
      (p.state = .error → HasError p = p.currentError) ∧
      (p.state = .unloaded → HasError p = some .projectNotLoaded) ∧
      (p.state ≠ .error → p.state ≠ .unloaded → HasError p = none) := by
  intro p
  refine ⟨rfl, ?_, ?_, ?_⟩
  · intro h
    unfold HasError
    rw [h]
  · intro h
    unfold HasError
    rw [h]
  · intro h1 h2
    unfold HasError
    cases hs : p.state
    · exact absurd hs h2
    · rfl
    · rfl
    · rfl
    · exact absurd hs h1

/-- Witness for C8 (amended): the dispatch at three concrete managers. -/
theorem projectError_dispatch_witness :
    HasError ⟨.error, some (.loadError 3)⟩ = some (.loadError 3) ∧
    HasError ⟨.unloaded, none⟩ = some .projectNotLoaded ∧
    HasError ⟨.loading, none⟩ = none := by
  refine ⟨(projectError_dispatch ⟨.error, some (.loadError 3)⟩).2.1 rfl,
    (projectError_dispatch ⟨.unloaded, none⟩).2.2.1 rfl,
    (projectError_dispatch ⟨.loading, none⟩).2.2.2 (by decide) (by decide)⟩

/-! ## C9: ParseExpandedNodeID panics on an unparsable trailing NodeId -/

/-- C9: evaluating the embedded `ParseExpandedNodeID` at
`"nsu=uri;x=1"`: the trailing NodeId fails to parse, `ParseNodeID`
returns `nil`, and the Go code dereferences the nil interface
(`nodeId.GetIDType()`), which panics — the `none` of the model.  The
spec forbids panics on this path, so the claim is right and the code is
wrong. -/
theorem parseExpandedNodeId_panics_on_bad_tail :
    parseExpandedNodeId "nsu=uri;x=1".toList = none ∧
    parseExpandedNodeId "i=85".toList = some ⟨0, [], some (.numeric 0 85)⟩ := by decide

/-! ## C5: NodeId text round trip -/

theorem natToDigits_all_digits (n : Nat) : (natToDigits n).all isDecDigit = true := by
  induction n using Nat.strong_induction_on with
  | _ n ih =>
    rw [natToDigits]
    by_cases h : n < 10
    · rw [dif_pos h]
      have hd : isDecDigit (digitToChar n) = true := by interval_cases n <;> decide
      simp [hd]
    · rw [dif_neg h]
      rw [List.all_append]
      have h1 := ih (n / 10) (Nat.div_lt_self (by omega) (by omega))
      have h2 : isDecDigit (digitToChar (n % 10)) = true := by
        have hm : n % 10 < 10 := Nat.mod_lt _ (by omega)
        generalize n % 10 = m at hm
        interval_cases m <;> decide
      simp [h1, h2]

theorem natToDigits_ne_nil (n : Nat) : natToDigits n ≠ [] := by
  rw [natToDigits]
  by_cases h : n < 10
  · rw [dif_pos h]
    simp
  · rw [dif_neg h]
    simp

theorem digitsVal_append (xs : List Char) (c : Char) :
    digitsVal (xs ++ [c]) = 10 * digitsVal xs + digitVal c := by
  unfold digitsVal
  rw [List.foldl_append]
  rfl

theorem digitsVal_natToDigits (n : Nat) : digitsVal (natToDigits n) = n := by
  induction n using Nat.strong_induction_on with
  | _ n ih =>
    rw [natToDigits]
    by_cases h : n < 10
    · rw [dif_pos h]
      have : digitVal (digitToChar n) = n := by interval_cases n <;> decide
      simpa [digitsVal] using this
    · rw [dif_neg h]
      rw [digitsVal_append, ih (n / 10) (Nat.div_lt_self (by omega) (by omega))]
      have hm : n % 10 < 10 := Nat.mod_lt _ (by omega)
      have : digitVal (digitToChar (n % 10)) = n % 10 := by
        generalize n % 10 = m at hm
        interval_cases m <;> decide
      rw [this]
      omega

theorem parseDigits_natToDigits (n : Nat) : parseDigits (natToDigits n) = some n := by
  unfold parseDigits
  rw [if_neg (by simp [List.isEmpty_iff, natToDigits_ne_nil]), if_pos (natToDigits_all_digits n),
    digitsVal_natToDigits]

theorem goParseUint_natToDigits (n b : Nat) (h : n ≤ 2 ^ b - 1) :
    goParseUint (natToDigits n) b = some n := by
  unfold goParseUint
  rw [parseDigits_natToDigits]
  simp [h]

theorem breakAtFirst_not_mem {sep : Char} :
    ∀ {xs : List Char} (ys : List Char), sep ∉ xs →
      breakAtFirst sep (xs ++ sep :: ys) = some (xs, ys)
  | [], ys, _ => by simp [breakAtFirst]
  | c :: xs, ys, h => by
    have hc : ¬ c = sep := fun hc => h (hc ▸ List.mem_cons_self c xs)
    have hxs : sep ∉ xs := fun hm => h (List.mem_cons_of_mem c hm)
    have ih := @breakAtFirst_not_mem sep xs ys hxs
    show breakAtFirst sep ((c :: xs) ++ sep :: ys) = some (c :: xs, ys)
    rw [List.cons_append]
    unfold breakAtFirst
    rw [if_neg hc, ih]
    rfl

theorem goStartsWith_append (pfx rest : List Char) : goStartsWith (pfx ++ rest) pfx = true := by
  induction pfx with
  | nil => simp [goStartsWith]
  | cons c cs ih => simp [goStartsWith, ih]

theorem goStartsWith_ne_head (c p : Char) (cs ps : List Char) (h : (c == p) = false) :
    goStartsWith (c :: cs) (p :: ps) = false := by
  simp [goStartsWith, h]

theorem not_mem_natToDigits_semicolon (n : Nat) : ';' ∉ natToDigits n := by
  intro hm
  have := List.all_eq_true.mp (natToDigits_all_digits n) _ hm
  exact absurd this (by decide)

theorem dispatch_numeric (ns idv : Nat) (hid : idv ≤ 4294967295)
    (h0 : ¬(idv = 0 ∧ ns = 0)) :
    parseNodeIdDispatch ns ("i=".toList ++ natToDigits idv) = some (.numeric ns idv) := by
  unfold parseNodeIdDispatch
  rw [if_pos (goStartsWith_append "i=".toList (natToDigits idv))]
  have hdrop : ("i=".toList ++ natToDigits idv).drop 2 = natToDigits idv := rfl
  rw [hdrop, goParseUint_natToDigits idv 32 (by norm_num; omega)]
  dsimp only
  rw [if_neg h0]

theorem dispatch_strId (ns : Nat) (p : List Char) :
    parseNodeIdDispatch ns ("s=".toList ++ p) = some (.strId ns p) := by
  have hi : goStartsWith ('s' :: '=' :: p) ['i', '='] = false :=
    goStartsWith_ne_head 's' 'i' ('=' :: p) ['='] (by decide)
  unfold parseNodeIdDispatch
  rw [if_neg (by simp [hi]), if_pos (goStartsWith_append "s=".toList p)]
  rfl

theorem dispatch_guid (ns g : Nat) :
    parseNodeIdDispatch ns ("g=".toList ++ natToDigits g) = some (.guid ns g) := by
  have hi : goStartsWith ('g' :: '=' :: natToDigits g) ['i', '='] = false :=
    goStartsWith_ne_head 'g' 'i' ('=' :: natToDigits g) ['='] (by decide)
  have hs : goStartsWith ('g' :: '=' :: natToDigits g) ['s', '='] = false :=
    goStartsWith_ne_head 'g' 's' ('=' :: natToDigits g) ['='] (by decide)
  unfold parseNodeIdDispatch
  rw [if_neg (by simp [hi]), if_neg (by simp [hs]),
    if_pos (goStartsWith_append "g=".toList (natToDigits g))]
  have hdrop : ("g=".toList ++ natToDigits g).drop 2 = natToDigits g := rfl
  rw [hdrop, parseDigits_natToDigits]

theorem dispatch_bytesId (ns b : Nat) :
    parseNodeIdDispatch ns ("b=".toList ++ natToDigits b) = some (.bytesId ns b) := by
  have hi : goStartsWith ('b' :: '=' :: natToDigits b) ['i', '='] = false :=
    goStartsWith_ne_head 'b' 'i' ('=' :: natToDigits b) ['='] (by decide)
  have hs : goStartsWith ('b' :: '=' :: natToDigits b) ['s', '='] = false :=
    goStartsWith_ne_head 'b' 's' ('=' :: natToDigits b) ['='] (by decide)
  have hg : goStartsWith ('b' :: '=' :: natToDigits b) ['g', '='] = false :=
    goStartsWith_ne_head 'b' 'g' ('=' :: natToDigits b) ['='] (by decide)
  unfold parseNodeIdDispatch
  rw [if_neg (by simp [hi]), if_neg (by simp [hs]), if_neg (by simp [hg]),
    if_pos (goStartsWith_append "b=".toList (natToDigits b))]
  have hdrop : ("b=".toList ++ natToDigits b).drop 2 = natToDigits b := rfl
  rw [hdrop, parseDigits_natToDigits]

theorem parse_nsPart (ns : Nat) (tail : List Char) (hns : ns ≠ 0) (hb : ns ≤ 65535) :
    parseNodeIdString (nsPart ns ++ tail) = parseNodeIdDispatch ns tail := by
  unfold nsPart
  rw [if_neg hns]
  have hshape : ("ns=".toList ++ natToDigits ns ++ [';']) ++ tail =
      "ns=".toList ++ (natToDigits ns ++ ';' :: tail) := by
    simp
  rw [hshape]
  unfold parseNodeIdString
  rw [if_pos (goStartsWith_append "ns=".toList (natToDigits ns ++ ';' :: tail))]
  have hshape2 : "ns=".toList ++ (natToDigits ns ++ ';' :: tail) =
      ("ns=".toList ++ natToDigits ns) ++ ';' :: tail := by
    simp
  rw [hshape2]
  rw [breakAtFirst_not_mem tail (by
    intro hm
    rcases List.mem_append.mp hm with hm | hm
    · exact absurd hm (by decide)
    · exact not_mem_natToDigits_semicolon ns hm)]
  dsimp only
  have hdrop : (("ns=".toList ++ natToDigits ns)).drop 3 = natToDigits ns := rfl
  rw [hdrop, goParseUint_natToDigits ns 16 (by norm_num; omega)]

/-- C5 counterexample: the numeric NodeId with namespace 0 and id 0
prints as `"i=0"`, which `ParseNodeIDString` rejects (`id == 0 && ns ==
0` returns nil), so parsing the string form is not the inverse of
printing on this NodeId. -/
theorem parseNodeId_toString_i0_cex :
    nodeIdToString (.numeric 0 0) = "i=0".toList ∧
    parseNodeIdString "i=0".toList = none := by
  constructor
  · show nsPart 0 ++ "i=".toList ++ natToDigits 0 = "i=0".toList
    rw [natToDigits]
    norm_num [nsPart, digitToChar]
  · decide

/-- C5 (amended): for every well-formed NodeId of the four variants
(namespace index up to 65535, numeric id up to 2^32-1) other than the
numeric NodeId `ns=0, id=0`, `ParseNodeIDString` applied to the
`String()` form returns the original NodeId. -/
theorem parseNodeId_toString_roundTrip :
    ∀ id : NodeIdM, nodeIdWellFormed id → id ≠ .numeric 0 0 →
      parseNodeIdString (nodeIdToString id) = some id := by
  intro id hwf hne
  cases id with
  | numeric ns idv =>
    obtain ⟨hns, hid⟩ := hwf
    have hnz : ¬(idv = 0 ∧ ns = 0) := by
      rintro ⟨rfl, rfl⟩
      exact hne rfl
    by_cases h0 : ns = 0
    · subst h0
      show parseNodeIdString (nsPart 0 ++ "i=".toList ++ natToDigits idv) = _
      rw [show nsPart 0 = ([] : List Char) from rfl, List.nil_append]
      unfold parseNodeIdString
      rw [if_neg (by
        simp [goStartsWith_ne_head 'i' 'n' ('=' :: natToDigits idv) ['s', '='] (by decide)])]
      exact dispatch_numeric 0 idv hid hnz
    · show parseNodeIdString (nsPart ns ++ "i=".toList ++ natToDigits idv) = _
      rw [List.append_assoc, parse_nsPart ns _ h0 hns]
      exact dispatch_numeric ns idv hid hnz
  | strId ns p =>
    by_cases h0 : ns = 0
    · subst h0
      show parseNodeIdString (nsPart 0 ++ "s=".toList ++ p) = _
      rw [show nsPart 0 = ([] : List Char) from rfl, List.nil_append]
      unfold parseNodeIdString
      rw [if_neg (by
        simp [goStartsWith_ne_head 's' 'n' ('=' :: p) ['s', '='] (by decide)])]
      exact dispatch_strId 0 p
    · show parseNodeIdString (nsPart ns ++ "s=".toList ++ p) = _
      rw [List.append_assoc, parse_nsPart ns _ h0 hwf]
      exact dispatch_strId ns p
  | guid ns g =>
    by_cases h0 : ns = 0
    · subst h0
      show parseNodeIdString (nsPart 0 ++ "g=".toList ++ natToDigits g) = _
      rw [show nsPart 0 = ([] : List Char) from rfl, List.nil_append]
      unfold parseNodeIdString
      rw [if_neg (by
        simp [goStartsWith_ne_head 'g' 'n' ('=' :: natToDigits g) ['s', '='] (by decide)])]
      exact dispatch_guid 0 g
    · show parseNodeIdString (nsPart ns ++ "g=".toList ++ natToDigits g) = _
      rw [List.append_assoc, parse_nsPart ns _ h0 hwf]
      exact dispatch_guid ns g
  | bytesId ns b =>
    by_cases h0 : ns = 0
    · subst h0
      show parseNodeIdString (nsPart 0 ++ "b=".toList ++ natToDigits b) = _
      rw [show nsPart 0 = ([] : List Char) from rfl, List.nil_append]
      unfold parseNodeIdString
      rw [if_neg (by
        simp [goStartsWith_ne_head 'b' 'n' ('=' :: natToDigits b) ['s', '='] (by decide)])]
      exact dispatch_bytesId 0 b
    · show parseNodeIdString (nsPart ns ++ "b=".toList ++ natToDigits b) = _
      rw [List.append_assoc, parse_nsPart ns _ h0 hwf]
      exact dispatch_bytesId ns b

/-- Witness for C5 (amended): the round trip at one concrete NodeId of
each variant. -/
theorem parseNodeId_toString_roundTrip_witness :
    parseNodeIdString (nodeIdToString (.numeric 2 85)) = some (.numeric 2 85) ∧
    parseNodeIdString (nodeIdToString (.strId 0 ['a', 'b'])) = some (.strId 0 ['a', 'b']) ∧
    parseNodeIdString (nodeIdToString (.guid 3 77)) = some (.guid 3 77) ∧
    parseNodeIdString (nodeIdToString (.bytesId 65535 4096)) = some (.bytesId 65535 4096) := by
  refine ⟨parseNodeId_toString_roundTrip _ ?_ (by decide),
    parseNodeId_toString_roundTrip _ ?_ (by decide),
    parseNodeId_toString_roundTrip _ ?_ (by decide),
    parseNodeId_toString_roundTrip _ ?_ (by decide)⟩ <;>
      simp [nodeIdWellFormed]
